import Mathlib

/-!
Verification of the `codeq-api-sdk` Python client
(`src/codeq_nlp_api/codeq_nlp_api.py`) against its natural-language
specification.

The development shallowly embeds the relevant Python code:

* JSON values are modelled by the inductive type `Json`.
* A Python object's `__dict__` (an insertion-ordered dictionary, as used by
  `OrderedClass`) is modelled as an association list `List (String × _)`
  together with the insertion operation `insertOD`, which updates an existing
  key in place and appends a fresh key at the end — exactly the behaviour of
  `OrderedDict.__setitem__` (and of plain `dict` in CPython ≥ 3.7, which is
  what `object.__new__(cls)` instances get in `CodeqClient._json_to_class`).
* Fallible Python operations (attribute access, iteration, indexing, string
  concatenation) return `Except PyErr _`, with `PyErr` distinguishing the
  Python exception classes the code can raise.
* `OrderedClass.__setattr__` first stores the value in `self.__dict__` and
  then calls `object.__setattr__`; the latter fails with `AttributeError`
  when the class has a setter-less data descriptor for that name
  (`Sentence.tagged_sentence` is a `@property` with no setter), and
  assigning the special name `"__dict__"` replaces the whole attribute
  dictionary (`TypeError` unless the value is a dictionary).
-/

/-- A JSON value, as produced by `json.loads` (numbers restricted to the
integers actually used by the payloads under study). Objects keep the key
order, mirroring `json.loads(..., object_pairs_hook=OrderedDict)`. -/
inductive Json where
  | null : Json
  | bool : Bool → Json
  | num : Int → Json
  | str : String → Json
  | arr : List Json → Json
  | obj : List (String × Json) → Json

/-- The Python exception classes the embedded code can raise.
`codeqAPIError` models `CodeqAPIError("%s; %s" % (status_code, reason))`,
keeping the two components of the formatted message. -/
inductive PyErr where
  | attributeError : PyErr
  | typeError : PyErr
  | indexError : PyErr
  | keyError : PyErr
  | valueError : PyErr
  | codeqAPIError : Nat → String → PyErr
deriving DecidableEq

/-- The value stored in one slot of a deserialized `Document`'s `__dict__`:
either a raw JSON value from the payload or (for the `sentences` slot after
`__document_from_json` rewrote it) a list of `Sentence` objects. -/
inductive DValue where
  | js : Json → DValue
  | sents : List (List (String × Json)) → DValue

/-- A `Sentence` instance's `__dict__`: ordered field names with JSON values. -/
abbrev SentObj := List (String × Json)

/-- A `Document` instance's `__dict__`. -/
abbrev DocObj := List (String × DValue)

/-- The key sequence of an ordered dictionary. -/
def odKeys {α : Type} (st : List (String × α)) : List String :=
  st.map Prod.fst

/-- `OrderedDict.__setitem__`: an existing key keeps its position and gets the
new value; a fresh key is appended at the end. -/
def insertOD {α : Type} : List (String × α) → String → α → List (String × α)
  | [], k, v => [(k, v)]
  | (k', w) :: rest, k, v =>
      if k' = k then (k', v) :: rest else (k', w) :: insertOD rest k v

/-- Dictionary lookup (first binding; ordered dictionaries never hold
duplicate keys). -/
def lookupOD {α : Type} : List (String × α) → String → Option α
  | [], _ => none
  | (k', v) :: rest, k => if k' = k then some v else lookupOD rest k

/-- The value the *last* binding of `k` carries in a list of assignments
(the value a dictionary holds after performing them all). -/
def lookupLast {α : Type} : List (String × α) → String → Option α
  | [], _ => none
  | (k', v) :: rest, k =>
      match lookupLast rest k with
      | some w => some w
      | none => if k' = k then some v else none

/-- The first occurrence of each name, in order of first occurrence. -/
def firstOccs : List String → List String
  | [] => []
  | k :: ks => k :: (firstOccs ks).filter (fun k2 => k2 != k)

/-- Python truthiness of a JSON value (`not value`). -/
def pyFalsy : Json → Bool
  | .null => true
  | .bool b => !b
  | .num n => n == 0
  | .str s => s.isEmpty
  | .arr xs => xs.isEmpty
  | .obj kvs => kvs.isEmpty

/-- `value is None`. -/
def Json.isNull : Json → Bool
  | .null => true
  | _ => false

/-- `list(data.items())`: succeeds only on dictionaries; every other JSON
value has no `.items` attribute. -/
def pyItems : Json → Except PyErr (List (String × Json))
  | .obj kvs => .ok kvs
  | _ => .error .attributeError

/-- Iterating a Python value: lists yield their elements, strings their
one-character substrings, dictionaries their keys; other values are not
iterable (`TypeError`). -/
def pyIter : Json → Except PyErr (List Json)
  | .arr xs => .ok xs
  | .str s => .ok (s.toList.map (fun c => Json.str (String.singleton c)))
  | .obj kvs => .ok (kvs.map (fun kv => Json.str kv.1))
  | _ => .error .typeError

/-- `value[i]` for a non-negative index: list/str indexing with
`IndexError` out of bounds; a JSON-derived dictionary has only string keys,
so an integer subscript raises `KeyError`; other values are not
subscriptable (`TypeError`). -/
def pyIndexJ : Json → Nat → Except PyErr Json
  | .arr xs, i =>
      match xs.get? i with
      | some x => .ok x
      | none => .error .indexError
  | .str s, i =>
      match s.toList.get? i with
      | some c => .ok (.str (String.singleton c))
      | none => .error .indexError
  | .obj _, _ => .error .keyError
  | _, _ => .error .typeError

/-- Using a value as the operand of string concatenation (`str + _` /
`_ + str`): `TypeError` unless it is a string. -/
def asStr : Json → Except PyErr String
  | .str s => .ok s
  | _ => .error .typeError

/-- `Sentence` has exactly one setter-less data descriptor:
the `tagged_sentence` property. -/
def Sentence.blockedNames : List String := ["tagged_sentence"]

/-- `Document` has no data descriptors; every attribute assignment succeeds. -/
def Document.blockedNames : List String := []

/-- `OrderedClass.__setattr__` for a class whose setter-less data
descriptors are `blocked`: a name other than `"__dict__"` is first written
into the ordered dictionary, then `object.__setattr__` runs (raising
`AttributeError` for a property without a setter); assigning `"__dict__"`
replaces the whole attribute dictionary (a non-dictionary value is a
`TypeError`). -/
def setattrB (blocked : List String) (st : SentObj) (k : String) (v : Json) :
    Except PyErr SentObj :=
  if k = "__dict__" then
    match v with
    | .obj kvs => .ok kvs
    | _ => .error .typeError
  else if k ∈ blocked then .error .attributeError
  else .ok (insertOD st k v)

/-- Attribute assignment on a `Sentence` instance. -/
def setattrS (st : SentObj) (k : String) (v : Json) : Except PyErr SentObj :=
  setattrB Sentence.blockedNames st k v

/-- Attribute assignment on a `Document` instance. -/
def setattrD (st : DocObj) (k : String) (v : DValue) : Except PyErr DocObj :=
  if k = "__dict__" then
    match v with
    | .js (.obj kvs) => .ok (kvs.map (fun kv => (kv.1, DValue.js kv.2)))
    | _ => .error .typeError
  else .ok (insertOD st k v)

/-- Attribute read on a `Sentence` instance for a name that is not a class
attribute: instance dictionary lookup, `AttributeError` on a miss. -/
def getattrS (st : SentObj) (k : String) : Except PyErr Json :=
  match lookupOD st k with
  | some v => .ok v
  | none => .error .attributeError

/-- Attribute read on a `Document` instance (same mechanism). -/
def getattrD (st : DocObj) (k : String) : Except PyErr DValue :=
  match lookupOD st k with
  | some v => .ok v
  | none => .error .attributeError

/-- A sequence of attribute assignments on an ordered-record instance. -/
def applyAssignsB (blocked : List String) (st : SentObj)
    (asgns : List (String × Json)) : Except PyErr SentObj :=
  asgns.foldlM (fun s kv => setattrB blocked s kv.1 kv.2) st

/-- The `__dict__` a fresh `Sentence(raw_sentence)` ends up with:
`Sentence.__init__` assigns these names in this order (none of them is
blocked, so every assignment succeeds). -/
def sentenceInit (raw_sentence : Json) : SentObj :=
  [("raw_sentence", raw_sentence), ("position", Json.null),
   ("paragraph", Json.null), ("tokens", Json.null),
   ("tokens_filtered", Json.null), ("stems", Json.null),
   ("lemmas", Json.null), ("pos_tags", Json.null),
   ("dependencies", Json.null), ("semantic_roles", Json.null),
   ("chunks", Json.null), ("chunk_labels", Json.null),
   ("chunk_tuples", Json.null), ("truecase_sentence", Json.null),
   ("detruecase_sentence", Json.null), ("speech_acts", Json.null),
   ("speech_act_values", Json.null), ("question_types", Json.null),
   ("question_tags", Json.null), ("named_entities", Json.null),
   ("named_entities_linked", Json.null), ("named_entities_salience", Json.null),
   ("nes_terms", Json.null), ("nes_types", Json.null),
   ("nes_positions", Json.null), ("emotions", Json.null),
   ("sarcasm", Json.null), ("sentiments", Json.null),
   ("dates", Json.null), ("is_task", Json.null),
   ("task_subclassification", Json.null), ("task_actions", Json.null),
   ("coreferences", Json.null), ("compressed_sentence", Json.null)]

/-- `CodeqClient._json_to_class(Sentence, data)`: a bare instance
(`object.__new__` leaves the attribute dictionary empty) populated by
`setattr` for every `(key, value)` of `data.items()`, in payload order. -/
def json_to_class_sentence (data : Json) : Except PyErr SentObj := do
  let kvs ← pyItems data
  kvs.foldlM (fun st kv => setattrS st kv.1 kv.2) ([] : SentObj)

/-- `CodeqClient._json_to_class(Document, data)` (payload values enter the
instance as raw JSON). -/
def json_to_class_document (data : Json) : Except PyErr DocObj := do
  let kvs ← pyItems data
  kvs.foldlM (fun st kv => setattrD st kv.1 (DValue.js kv.2)) ([] : DocObj)

/-- `CodeqClient.__document_from_json(document_json, benchmark)`:
deserialize the document, replace `document.sentences` by deserialized
`Sentence` objects (reading the attribute fails with `AttributeError` when
the payload had no `sentences` key; a non-iterable value fails with
`TypeError`; a non-dictionary element fails inside `_json_to_class`), and
finally set `run_time_stats` to `None` when `benchmark` is false. -/
def document_from_json (document_json : Json) (benchmark : Bool) :
    Except PyErr DocObj := do
  let document ← json_to_class_document document_json
  let sentsVal ← getattrD document "sentences"
  let sentItems ←
    (match sentsVal with
     | .js j => pyIter j
     | .sents ss => .ok (ss.map Json.obj))
  let sentences ← sentItems.mapM json_to_class_sentence
  let document ← setattrD document "sentences" (DValue.sents sentences)
  if benchmark then
    return document
  else
    setattrD document "run_time_stats" (DValue.js Json.null)

/-- The list comprehension
`[t + '/' + self.pos_tags[i] for i, t in enumerate(self.tokens)]`,
with `i` the running index: each step evaluates `t + '/'` (a `TypeError`
unless `t` is a string), then `self.pos_tags[i]`, then the final
concatenation. -/
def tagPartsFrom (pt : Json) : Nat → List Json → Except PyErr (List String)
  | _, [] => .ok []
  | i, t :: rest => do
      let ts ← asStr t
      let tg ← pyIndexJ pt i
      let tgs ← asStr tg
      let more ← tagPartsFrom pt (i + 1) rest
      .ok ((ts ++ "/" ++ tgs) :: more)

/-- The `Sentence.tagged_sentence` property: returns `None` when
`self.pos_tags` is falsy, otherwise joins the token/tag pairs with spaces.
Reading `pos_tags` / `tokens` on an instance that lacks them raises
`AttributeError`. -/
def tagged_sentence (st : SentObj) : Except PyErr (Option String) := do
  let pt ← getattrS st "pos_tags"
  if pyFalsy pt then
    return none
  else
    let toks ← getattrS st "tokens"
    let items ← pyIter toks
    let parts ← tagPartsFrom pt 0 items
    return some (String.intercalate " " parts)

/-- `Sentence.to_dict`: a fresh ordered dictionary collecting, in field
order, every attribute whose value `is not None`. -/
def sentence_to_dict (st : SentObj) : List (String × Json) :=
  st.foldl (fun acc kv => if kv.2.isNull then acc else insertOD acc kv.1 kv.2) []

/-- The presence test of `Document.to_dict`:
`value is not None and value != {} and value != []`. A list of `Sentence`
objects compares unequal to `{}` always and equal to `[]` exactly when it
is empty. -/
def docValPresent : DValue → Bool
  | .js Json.null => false
  | .js (.obj []) => false
  | .js (.arr []) => false
  | .js _ => true
  | .sents ss => !ss.isEmpty

/-- One iteration of the `Document.to_dict` loop: skip a non-present value;
store a present value; for the `sentences` attribute store
`[s.to_dict() for s in value]` instead (when the stored value is a raw JSON
value rather than a list of `Sentence` objects, that comprehension fails:
iterating a non-iterable is a `TypeError` and calling `.to_dict()` on a
non-`Sentence` element is an `AttributeError`). -/
def docDictStep (acc : List (String × DValue)) (kv : String × DValue) :
    Except PyErr (List (String × DValue)) :=
  if docValPresent kv.2 then
    if kv.1 = "sentences" then
      match kv.2 with
      | .sents ss =>
          .ok (insertOD acc kv.1
                (DValue.js (.arr (ss.map (fun s => Json.obj (sentence_to_dict s))))))
      | .js j => do
          let items ← pyIter j
          let ds ← items.mapM
            (fun _ => (.error .attributeError : Except PyErr Json))
          .ok (insertOD acc kv.1 (DValue.js (.arr ds)))
    else .ok (insertOD acc kv.1 kv.2)
  else .ok acc

/-- `Document.to_dict`: collect, in field order, every present attribute. -/
def document_to_dict (st : DocObj) : Except PyErr (List (String × DValue)) :=
  st.foldlM docDictStep []

/-- The fixed service endpoint. -/
def CODEQ_API_ENDPOINT_LAST : String := "https://api.codeq.com/v1"

/-- `CodeqClient.__init__` state: credentials plus the fixed endpoint. -/
structure CodeqClient where
  user_id : String
  user_key : String
  endpoint : String := CODEQ_API_ENDPOINT_LAST

/-- The JSON body `CodeqClient.__run_request` posts:
`{'user_id', 'user_key', 'text', 'pipeline', 'benchmark'}` in that order. -/
def runRequestParams (c : CodeqClient) (text : String) (pipeline : Json)
    (benchmark : Bool) : List (String × Json) :=
  [("user_id", .str c.user_id), ("user_key", .str c.user_key),
   ("text", .str text), ("pipeline", pipeline), ("benchmark", .bool benchmark)]

/-- Splitting a character sequence at every comma (the comma-split
underlying `re.split(r'\s*,\s*', s)`); the empty input yields one empty
piece, as `re.split` does. -/
def splitOnComma : List Char → List (List Char)
  | [] => [[]]
  | c :: rest =>
      match splitOnComma rest with
      | [] => [[]]
      | p :: ps => if c = ',' then [] :: p :: ps else (c :: p) :: ps

/-- Dropping leading whitespace (the `\s*` consumed after a comma). -/
def trimLeadingWs : List Char → List Char
  | [] => []
  | c :: rest => if c.isWhitespace then trimLeadingWs rest else c :: rest

/-- Dropping trailing whitespace (the `\s*` consumed before a comma). -/
def trimTrailingWs (cs : List Char) : List Char :=
  (trimLeadingWs cs.reverse).reverse

/-- `re.split(r'\s*,\s*', s)`: the string is cut at each comma together
with the whitespace directly around it; text before the first comma keeps
its leading whitespace and text after the last comma keeps its trailing
whitespace. A string without commas is returned whole, untouched. -/
def pySplitCommaWs (s : String) : List String :=
  let ps := splitOnComma s.toList
  let n := ps.length
  ((List.range n).zip ps).map
    (fun ip =>
      let p := if ip.1 = 0 then ip.2 else trimLeadingWs ip.2
      let q := if ip.1 = n - 1 then p else trimTrailingWs p
      String.mk q)

/-- The `pipeline` argument of `CodeqClient.analyze`: absent (`None`), a
comma-separated string, or a list of stage names. -/
inductive PipelineArg where
  | noneArg : PipelineArg
  | str : String → PipelineArg
  | list : List String → PipelineArg

/-- `analyze` normalization: a string is split on commas (yielding a list),
a list passes through, `None` passes through; the result is what the
`pipeline` field of the wire request carries. -/
def normalizePipeline : PipelineArg → Json
  | .noneArg => .null
  | .str s => .arr ((pySplitCommaWs s).map Json.str)
  | .list xs => .arr (xs.map Json.str)

/-- `CodeqClient.analyze(text, pipeline, benchmark)`, modelled up to the
wire request it hands to `__run_request`. -/
def CodeqClient.analyze (c : CodeqClient) (text : String)
    (pipeline : PipelineArg) (benchmark : Bool) : List (String × Json) :=
  runRequestParams c text (normalizePipeline pipeline) benchmark

/-- `CodeqClient.language`, modelled as the wire request it issues. -/
def CodeqClient.language (c : CodeqClient) (text : String) : List (String × Json) :=
  runRequestParams c text (.str "language") false

/-- `CodeqClient.tokenize`. -/
def CodeqClient.tokenize (c : CodeqClient) (text : String) : List (String × Json) :=
  runRequestParams c text (.str "tokenize") false

/-- `CodeqClient.detokenize`. -/
def CodeqClient.detokenize (c : CodeqClient) (text : String) : List (String × Json) :=
  runRequestParams c text (.str "detokenize") false

/-- `CodeqClient.ssplit`. -/
def CodeqClient.ssplit (c : CodeqClient) (text : String) : List (String × Json) :=
  runRequestParams c text (.str "ssplit") false

/-- `CodeqClient.stopword`. -/
def CodeqClient.stopword (c : CodeqClient) (text : String) : List (String × Json) :=
  runRequestParams c text (.str "stopword") false

/-- `CodeqClient.stem`. -/
def CodeqClient.stem (c : CodeqClient) (text : String) : List (String × Json) :=
  runRequestParams c text (.str "stem") false

/-- `CodeqClient.truecase`. -/
def CodeqClient.truecase (c : CodeqClient) (text : String) : List (String × Json) :=
  runRequestParams c text (.str "truecase") false

/-- `CodeqClient.detruecase`. -/
def CodeqClient.detruecase (c : CodeqClient) (text : String) : List (String × Json) :=
  runRequestParams c text (.str "detruecase") false

/-- `CodeqClient.pos`. -/
def CodeqClient.pos (c : CodeqClient) (text : String) : List (String × Json) :=
  runRequestParams c text (.str "pos") false

/-- `CodeqClient.lemma`. -/
def CodeqClient.lemma (c : CodeqClient) (text : String) : List (String × Json) :=
  runRequestParams c text (.str "lemma") false

/-- `CodeqClient.speechact`. -/
def CodeqClient.speechact (c : CodeqClient) (text : String) : List (String × Json) :=
  runRequestParams c text (.str "speechact") false

/-- `CodeqClient.question`. -/
def CodeqClient.question (c : CodeqClient) (text : String) : List (String × Json) :=
  runRequestParams c text (.str "question") false

/-- `CodeqClient.ner`. -/
def CodeqClient.ner (c : CodeqClient) (text : String) : List (String × Json) :=
  runRequestParams c text (.str "ner") false

/-- `CodeqClient.parse`. -/
def CodeqClient.parse (c : CodeqClient) (text : String) : List (String × Json) :=
  runRequestParams c text (.str "parse") false

/-- `CodeqClient.semantic_roles`. -/
def CodeqClient.semantic_roles (c : CodeqClient) (text : String) : List (String × Json) :=
  runRequestParams c text (.str "semantic_roles") false

/-- `CodeqClient.coreferences` (note the singular stage name). -/
def CodeqClient.coreferences (c : CodeqClient) (text : String) : List (String × Json) :=
  runRequestParams c text (.str "coreference") false

/-- `CodeqClient.date`. -/
def CodeqClient.date (c : CodeqClient) (text : String) : List (String × Json) :=
  runRequestParams c text (.str "date") false

/-- `CodeqClient.task`. -/
def CodeqClient.task (c : CodeqClient) (text : String) : List (String × Json) :=
  runRequestParams c text (.str "task") false

/-- `CodeqClient.sentiment`. -/
def CodeqClient.sentiment (c : CodeqClient) (text : String) : List (String × Json) :=
  runRequestParams c text (.str "sentiment") false

/-- `CodeqClient.emotion`. -/
def CodeqClient.emotion (c : CodeqClient) (text : String) : List (String × Json) :=
  runRequestParams c text (.str "emotion") false

/-- `CodeqClient.sarcasm`. -/
def CodeqClient.sarcasm (c : CodeqClient) (text : String) : List (String × Json) :=
  runRequestParams c text (.str "sarcasm") false

/-- `CodeqClient.compress`. -/
def CodeqClient.compress (c : CodeqClient) (text : String) : List (String × Json) :=
  runRequestParams c text (.str "compress") false

/-- `CodeqClient.summarize`. -/
def CodeqClient.summarize (c : CodeqClient) (text : String) : List (String × Json) :=
  runRequestParams c text (.str "summarize") false

/-- `CodeqClient.summarize_compress`. -/
def CodeqClient.summarize_compress (c : CodeqClient) (text : String) : List (String × Json) :=
  runRequestParams c text (.str "summarize_compress") false

/-- `CodeqClient.chunk`. -/
def CodeqClient.chunk (c : CodeqClient) (text : String) : List (String × Json) :=
  runRequestParams c text (.str "chunk") false

/-- `CodeqClient.nel`. -/
def CodeqClient.nel (c : CodeqClient) (text : String) : List (String × Json) :=
  runRequestParams c text (.str "nel") false

/-- `CodeqClient.salience`. -/
def CodeqClient.salience (c : CodeqClient) (text : String) : List (String × Json) :=
  runRequestParams c text (.str "salience") false

/-- An HTTP response as `__run_request` observes it: status code, reason
phrase, and the JSON value its body parses to (`none` when the body is not
valid JSON, in which case `json.loads` raises `JSONDecodeError`, a
`ValueError`). -/
structure HttpResponse where
  status_code : Nat
  reason : String
  bodyJson : Option Json

/-- The response half of `CodeqClient.__run_request`: on status 200 parse
the body and deserialize it; on any other status raise
`CodeqAPIError("%s; %s" % (status_code, reason))` without touching the
body. -/
def run_request_response (resp : HttpResponse) (benchmark : Bool) :
    Except PyErr DocObj :=
  if resp.status_code = 200 then
    match resp.bodyJson with
    | some j => document_from_json j benchmark
    | none => .error .valueError
  else
    .error (.codeqAPIError resp.status_code resp.reason)

/-- Is the error the `CodeqAPIError` kind? -/
def PyErr.isAPIError : PyErr → Bool
  | .codeqAPIError _ _ => true
  | _ => false

/-- Replaying a list of bindings into an ordered dictionary. -/
def foldInsert {α : Type} (st : List (String × α)) (kvs : List (String × α)) :
    List (String × α) :=
  kvs.foldl (fun s kv => insertOD s kv.1 kv.2) st

/-- The key sequence obtained by adding names to a base key sequence:
known names are ignored, fresh names are appended. -/
def addKeys : List String → List String → List String
  | base, [] => base
  | base, k :: ks => addKeys (if k ∈ base then base else base ++ [k]) ks

/-- The attribute dictionary `_json_to_class(Document, dj)` builds. -/
def docFold (dj : List (String × Json)) : DocObj :=
  foldInsert [] (dj.map (fun kv => (kv.1, DValue.js kv.2)))

@[simp] theorem odKeys_nil {α : Type} : odKeys ([] : List (String × α)) = [] := rfl

@[simp] theorem odKeys_cons {α : Type} (k : String) (v : α) (l : List (String × α)) :
    odKeys ((k, v) :: l) = k :: odKeys l := rfl

@[simp] theorem lookupOD_nil {α : Type} (k : String) :
    lookupOD ([] : List (String × α)) k = none := rfl

theorem lookupOD_cons {α : Type} (k' : String) (v : α) (l : List (String × α))
    (k : String) :
    lookupOD ((k', v) :: l) k = if k' = k then some v else lookupOD l k := rfl

theorem insertOD_cons {α : Type} (k' : String) (w : α) (l : List (String × α))
    (k : String) (v : α) :
    insertOD ((k', w) :: l) k v =
      if k' = k then (k', v) :: l else (k', w) :: insertOD l k v := rfl

theorem foldInsert_cons {α : Type} (st : List (String × α)) (k : String) (v : α)
    (tl : List (String × α)) :
    foldInsert st ((k, v) :: tl) = foldInsert (insertOD st k v) tl := rfl

theorem lookupLast_cons {α : Type} (k' : String) (v : α) (l : List (String × α))
    (k : String) :
    lookupLast ((k', v) :: l) k =
      match lookupLast l k with
      | some w => some w
      | none => if k' = k then some v else none := rfl

theorem lookupOD_insertOD {α : Type} (st : List (String × α)) (k : String)
    (v : α) (k' : String) :
    lookupOD (insertOD st k v) k' = if k' = k then some v else lookupOD st k' := by
  induction st with
  | nil =>
      simp only [insertOD, lookupOD_cons, lookupOD_nil]
      by_cases h : k = k'
      · subst h; simp
      · simp [h, Ne.symm h]
  | cons hd tl ih =>
      obtain ⟨k0, v0⟩ := hd
      by_cases h0 : k0 = k
      · subst h0
        rw [insertOD_cons, if_pos rfl]
        by_cases h1 : k0 = k'
        · subst h1; simp [lookupOD_cons]
        · simp [lookupOD_cons, h1, Ne.symm h1]
      · rw [insertOD_cons, if_neg h0]
        by_cases h1 : k0 = k'
        · subst h1
          have h2 : ¬ k0 = k := h0
          simp [lookupOD_cons, h2]
        · simp [lookupOD_cons, h1, ih]

theorem odKeys_insertOD {α : Type} (st : List (String × α)) (k : String) (v : α) :
    odKeys (insertOD st k v) =
      if k ∈ odKeys st then odKeys st else odKeys st ++ [k] := by
  induction st with
  | nil => simp [insertOD]
  | cons hd tl ih =>
      obtain ⟨k0, v0⟩ := hd
      by_cases h0 : k0 = k
      · subst h0
        rw [insertOD_cons, if_pos rfl]
        simp
      · have hne : ¬ k = k0 := fun h => h0 h.symm
        rw [insertOD_cons, if_neg h0]
        by_cases h1 : k ∈ odKeys tl
        · simp [hne, h1, ih]
        · simp [hne, h1, ih]

theorem insertOD_of_not_mem {α : Type} (st : List (String × α)) (k : String)
    (v : α) (h : k ∉ odKeys st) : insertOD st k v = st ++ [(k, v)] := by
  induction st with
  | nil => simp [insertOD]
  | cons hd tl ih =>
      obtain ⟨k0, v0⟩ := hd
      simp only [odKeys_cons, List.mem_cons] at h
      push_neg at h
      rw [insertOD_cons, if_neg (Ne.symm h.1), ih h.2]
      simp

theorem lookupOD_eq_none_iff {α : Type} (st : List (String × α)) (k : String) :
    lookupOD st k = none ↔ k ∉ odKeys st := by
  induction st with
  | nil => simp
  | cons hd tl ih =>
      obtain ⟨k0, v0⟩ := hd
      by_cases h0 : k0 = k
      · subst h0
        simp [lookupOD_cons]
      · simp [lookupOD_cons, h0, Ne.symm h0, ih]

theorem lookupLast_eq_none_iff {α : Type} (st : List (String × α)) (k : String) :
    lookupLast st k = none ↔ k ∉ st.map Prod.fst := by
  induction st with
  | nil => simp [lookupLast]
  | cons hd tl ih =>
      obtain ⟨k0, v0⟩ := hd
      rw [lookupLast_cons]
      cases h : lookupLast tl k with
      | some w =>
          have : k ∈ tl.map Prod.fst := by
            by_contra hc
            rw [ih.mpr hc] at h
            cases h
          simp [this]
      | none =>
          by_cases h0 : k0 = k
          · subst h0; simp
          · simp [h0, Ne.symm h0, ih.mp h]

theorem lookupLast_map_val {α β : Type} (st : List (String × α)) (f : α → β)
    (k : String) :
    lookupLast (st.map (fun kv => (kv.1, f kv.2))) k =
      (lookupLast st k).map f := by
  induction st with
  | nil => simp [lookupLast]
  | cons hd tl ih =>
      obtain ⟨k0, v0⟩ := hd
      simp only [List.map_cons, lookupLast_cons, ih]
      cases h : lookupLast tl k with
      | some w => simp
      | none => by_cases h0 : k0 = k <;> simp [h0]

theorem odKeys_map_val {α β : Type} (st : List (String × α)) (f : α → β) :
    odKeys (st.map (fun kv => (kv.1, f kv.2))) = odKeys st := by
  induction st with
  | nil => rfl
  | cons hd tl ih =>
      obtain ⟨k0, v0⟩ := hd
      simp only [List.map_cons, odKeys_cons, ih]

theorem lookupOD_foldInsert {α : Type} (kvs : List (String × α))
    (st : List (String × α)) (k : String) :
    lookupOD (foldInsert st kvs) k =
      match lookupLast kvs k with
      | some v => some v
      | none => lookupOD st k := by
  induction kvs generalizing st with
  | nil => simp [foldInsert, lookupLast]
  | cons hd tl ih =>
      obtain ⟨k0, v0⟩ := hd
      rw [foldInsert_cons, ih, lookupLast_cons]
      cases h : lookupLast tl k with
      | some w => simp
      | none =>
          by_cases h0 : k0 = k
          · subst h0; simp [lookupOD_insertOD]
          · simp [h0, lookupOD_insertOD, Ne.symm h0]

theorem odKeys_foldInsert {α : Type} (kvs : List (String × α))
    (st : List (String × α)) :
    odKeys (foldInsert st kvs) = addKeys (odKeys st) (odKeys kvs) := by
  induction kvs generalizing st with
  | nil => simp [foldInsert, addKeys, odKeys]
  | cons hd tl ih =>
      obtain ⟨k0, v0⟩ := hd
      have h1 : foldInsert st ((k0, v0) :: tl) = foldInsert (insertOD st k0 v0) tl := rfl
      have h2 : odKeys ((k0, v0) :: tl) = k0 :: odKeys tl := rfl
      rw [h1, h2, ih, odKeys_insertOD, addKeys]

theorem addKeys_eq (ks : List String) (base : List String) :
    addKeys base ks =
      base ++ (firstOccs ks).filter (fun x => decide (x ∉ base)) := by
  induction ks generalizing base with
  | nil => simp [addKeys, firstOccs]
  | cons k tl ih =>
      by_cases hk : k ∈ base
      · have hstep : addKeys base (k :: tl) = addKeys base tl := by
          simp [addKeys, hk]
        rw [hstep, ih base]
        show _ = base ++ List.filter _ (k :: List.filter _ (firstOccs tl))
        rw [List.filter_cons_of_neg (by simp [hk]), List.filter_filter]
        congr 1
        apply List.filter_congr
        intro x _
        by_cases hx : x = k
        · subst hx; simp [hk]
        · simp [hx]
      · have hstep : addKeys base (k :: tl) = addKeys (base ++ [k]) tl := by
          simp [addKeys, hk]
        rw [hstep, ih (base ++ [k])]
        show _ = base ++ List.filter _ (k :: List.filter _ (firstOccs tl))
        rw [List.filter_cons_of_pos (by simp [hk]), List.filter_filter,
            List.append_assoc, List.singleton_append]
        congr 2
        apply List.filter_congr
        intro x _
        by_cases hx : x = k
        · subst hx; simp
        · simp [hx, List.mem_append]

theorem addKeys_nil_eq_firstOccs (ks : List String) :
    addKeys [] ks = firstOccs ks := by
  rw [addKeys_eq]
  simp

theorem mem_firstOccs (x : String) (ks : List String) :
    x ∈ firstOccs ks ↔ x ∈ ks := by
  induction ks with
  | nil => simp [firstOccs]
  | cons k tl ih =>
      by_cases hx : x = k
      · subst hx; simp [firstOccs]
      · simp [firstOccs, hx, List.mem_filter, ih]

/-- The final document `__document_from_json` builds, given the payload
fields and the list of deserialized sentence objects. -/
def finalDoc (dj : List (String × Json)) (sents : List SentObj)
    (benchmark : Bool) : DocObj :=
  let d1 := insertOD (docFold dj) "sentences" (DValue.sents sents)
  if benchmark then d1 else insertOD d1 "run_time_stats" (DValue.js Json.null)

theorem applyAssignsB_ok (blocked : List String) (asgns : List (String × Json))
    (st : SentObj) (h : ∀ p ∈ asgns, p.1 ∉ blocked ∧ p.1 ≠ "__dict__") :
    applyAssignsB blocked st asgns = .ok (foldInsert st asgns) := by
  induction asgns generalizing st with
  | nil => rfl
  | cons hd tl ih =>
      obtain ⟨k, v⟩ := hd
      have hk := h (k, v) (by simp)
      have hstep : setattrB blocked st k v = .ok (insertOD st k v) := by
        simp only [setattrB, if_neg hk.2, if_neg hk.1]
      have hrec := ih (insertOD st k v) (fun p hp => h p (by simp [hp]))
      show setattrB blocked st k v >>= _ = _
      rw [hstep, foldInsert_cons]
      exact hrec

theorem json_to_class_sentence_eq (kvs : List (String × Json))
    (h : ∀ p ∈ kvs, p.1 ≠ "tagged_sentence" ∧ p.1 ≠ "__dict__") :
    json_to_class_sentence (.obj kvs) = .ok (foldInsert [] kvs) := by
  have h1 : json_to_class_sentence (.obj kvs) =
      applyAssignsB Sentence.blockedNames [] kvs := rfl
  rw [h1, applyAssignsB_ok]
  intro p hp
  exact ⟨by simp [Sentence.blockedNames, (h p hp).1], (h p hp).2⟩

theorem foldlM_setattrD_ok (dj : List (String × Json)) (st : DocObj)
    (h : "__dict__" ∉ dj.map Prod.fst) :
    dj.foldlM (fun s kv => setattrD s kv.1 (DValue.js kv.2)) st =
      .ok (foldInsert st (dj.map (fun kv => (kv.1, DValue.js kv.2)))) := by
  induction dj generalizing st with
  | nil => rfl
  | cons hd tl ih =>
      obtain ⟨k, v⟩ := hd
      simp only [List.map_cons, List.mem_cons] at h
      push_neg at h
      have hstep : setattrD st k (DValue.js v) = .ok (insertOD st k (DValue.js v)) := by
        simp only [setattrD, if_neg (Ne.symm h.1)]
      show setattrD st k (DValue.js v) >>= _ = _
      rw [hstep]
      simpa using ih (insertOD st k (DValue.js v)) h.2

theorem json_to_class_document_eq (dj : List (String × Json))
    (h : "__dict__" ∉ dj.map Prod.fst) :
    json_to_class_document (.obj dj) = .ok (docFold dj) := by
  have h1 : json_to_class_document (.obj dj) =
      dj.foldlM (fun s kv => setattrD s kv.1 (DValue.js kv.2)) [] := rfl
  rw [h1, foldlM_setattrD_ok dj [] h]
  rfl

theorem mapM_json_to_class_sentence_ok (sjs : List Json)
    (h : ∀ s ∈ sjs, ∃ kvs, s = Json.obj kvs ∧
          ∀ p ∈ kvs, p.1 ≠ "tagged_sentence" ∧ p.1 ≠ "__dict__") :
    ∃ sents, sjs.mapM json_to_class_sentence = .ok sents ∧
      List.Forall₂ (fun sj st => ∃ kvs, sj = Json.obj kvs ∧ st = foldInsert [] kvs)
        sjs sents := by
  induction sjs with
  | nil => exact ⟨[], rfl, .nil⟩
  | cons hd tl ih =>
      obtain ⟨kvs, rfl, hwf⟩ := h hd (by simp)
      obtain ⟨sents, hok, hrel⟩ := ih (fun s hs => h s (by simp [hs]))
      refine ⟨foldInsert [] kvs :: sents, ?_, .cons ⟨kvs, rfl, rfl⟩ hrel⟩
      rw [List.mapM_cons, json_to_class_sentence_eq kvs hwf]
      show (Except.ok (foldInsert [] kvs) >>= _ : Except PyErr _) = _
      rw [show ∀ x f, (Except.ok x >>= f : Except PyErr (List SentObj)) = f x
            from fun x f => rfl]
      rw [hok]
      rfl

theorem lookupOD_docFold (dj : List (String × Json)) (k : String) :
    lookupOD (docFold dj) k = (lookupLast dj k).map DValue.js := by
  rw [docFold, lookupOD_foldInsert, lookupLast_map_val]
  cases lookupLast dj k <;> rfl

theorem odKeys_docFold (dj : List (String × Json)) :
    odKeys (docFold dj) = firstOccs (dj.map Prod.fst) := by
  rw [docFold, odKeys_foldInsert, odKeys_map_val,
      show odKeys ([] : DocObj) = [] from rfl, addKeys_nil_eq_firstOccs]
  rfl

@[simp] theorem except_bind_ok {α β : Type} (a : α) (f : α → Except PyErr β) :
    (Except.ok a >>= f) = f a := rfl

@[simp] theorem except_bind_err {α β : Type} (e : PyErr) (f : α → Except PyErr β) :
    ((Except.error e : Except PyErr α) >>= f) = .error e := rfl

@[simp] theorem except_pure {α : Type} (a : α) :
    (pure a : Except PyErr α) = .ok a := rfl

/-- The computation can fail, but never with a `CodeqAPIError`. -/
def noAPIError {α : Type} (r : Except PyErr α) : Prop :=
  ∀ e, r = .error e → e.isAPIError = false

theorem noAPIError_ok {α : Type} (a : α) : noAPIError (Except.ok a : Except PyErr α) := by
  intro e h
  cases h

theorem noAPIError_bind {α β : Type} (x : Except PyErr α) (f : α → Except PyErr β)
    (hx : noAPIError x) (hf : ∀ a, noAPIError (f a)) : noAPIError (x >>= f) := by
  cases x with
  | ok a => exact hf a
  | error e =>
      intro e2 h
      simp only [except_bind_err, Except.error.injEq] at h
      subst h
      exact hx e rfl

theorem noAPIError_setattrB (blocked : List String) (st : SentObj) (k : String)
    (v : Json) : noAPIError (setattrB blocked st k v) := by
  intro e h
  unfold setattrB at h
  split at h
  · split at h
    · cases h
    · injection h with he
      subst he
      rfl
  · split at h
    · injection h with he
      subst he
      rfl
    · cases h

theorem noAPIError_setattrD (st : DocObj) (k : String) (v : DValue) :
    noAPIError (setattrD st k v) := by
  intro e h
  unfold setattrD at h
  split at h
  · split at h
    · cases h
    · injection h with he
      subst he
      rfl
  · cases h

theorem noAPIError_pyItems (j : Json) : noAPIError (pyItems j) := by
  intro e h
  unfold pyItems at h
  split at h
  · cases h
  · injection h with he
    subst he
    rfl

theorem noAPIError_pyIter (j : Json) : noAPIError (pyIter j) := by
  intro e h
  unfold pyIter at h
  split at h <;> first
    | (injection h with he; subst he; rfl)
    | cases h

theorem noAPIError_getattrD (st : DocObj) (k : String) :
    noAPIError (getattrD st k) := by
  intro e h
  unfold getattrD at h
  split at h
  · cases h
  · injection h with he
    subst he
    rfl

theorem noAPIError_foldlM {α : Type} (f : α → String × Json → Except PyErr α)
    (hf : ∀ a kv, noAPIError (f a kv)) (l : List (String × Json)) (init : α) :
    noAPIError (l.foldlM f init) := by
  induction l generalizing init with
  | nil => exact noAPIError_ok init
  | cons hd tl ih =>
      show noAPIError (f init hd >>= _)
      exact noAPIError_bind _ _ (hf init hd) (fun a => ih a)

theorem noAPIError_json_to_class_sentence (j : Json) :
    noAPIError (json_to_class_sentence j) := by
  unfold json_to_class_sentence
  exact noAPIError_bind _ _ (noAPIError_pyItems j)
    (fun kvs => noAPIError_foldlM _ (fun a kv => noAPIError_setattrB _ a kv.1 kv.2) kvs [])

theorem noAPIError_json_to_class_document (j : Json) :
    noAPIError (json_to_class_document j) := by
  unfold json_to_class_document
  exact noAPIError_bind _ _ (noAPIError_pyItems j)
    (fun kvs => noAPIError_foldlM _ (fun a kv => noAPIError_setattrD a kv.1 (DValue.js kv.2)) kvs [])

theorem noAPIError_mapM_sentence (l : List Json) :
    noAPIError (l.mapM json_to_class_sentence) := by
  induction l with
  | nil => exact noAPIError_ok []
  | cons hd tl ih =>
      rw [List.mapM_cons]
      exact noAPIError_bind _ _ (noAPIError_json_to_class_sentence hd)
        (fun a => noAPIError_bind _ _ ih (fun l2 => noAPIError_ok _))

theorem noAPIError_document_from_json (j : Json) (b : Bool) :
    noAPIError (document_from_json j b) := by
  unfold document_from_json
  apply noAPIError_bind _ _ (noAPIError_json_to_class_document j)
  intro document
  apply noAPIError_bind _ _ (noAPIError_getattrD document "sentences")
  intro sv
  apply noAPIError_bind
  · cases sv with
    | js jv => exact noAPIError_pyIter jv
    | sents ss => exact noAPIError_ok _
  intro sentItems
  apply noAPIError_bind _ _ (noAPIError_mapM_sentence sentItems)
  intro sentences
  apply noAPIError_bind _ _ (noAPIError_setattrD document "sentences" (DValue.sents sentences))
  intro document2
  cases b with
  | true => exact noAPIError_ok document2
  | false => exact noAPIError_setattrD document2 "run_time_stats" (DValue.js Json.null)

theorem tagPartsFrom_nil (pt : Json) (i : Nat) :
    tagPartsFrom pt i [] = .ok [] := rfl

theorem tagPartsFrom_cons (pt : Json) (i : Nat) (t : Json) (rest : List Json) :
    tagPartsFrom pt i (t :: rest) =
      (asStr t >>= fun ts =>
        pyIndexJ pt i >>= fun tg =>
          asStr tg >>= fun tgs =>
            tagPartsFrom pt (i + 1) rest >>= fun more =>
              .ok ((ts ++ "/" ++ tgs) :: more)) := rfl

theorem pyIndexJ_arr_in (pts : List String) (i : Nat) (hi : i < pts.length) :
    pyIndexJ (.arr (pts.map Json.str)) i = .ok (Json.str (pts.get ⟨i, hi⟩)) := by
  have hgeti : pts[i]? = some (pts.get ⟨i, hi⟩) := by
    simp [List.getElem?_eq_getElem, hi, List.get_eq_getElem]
  simp [pyIndexJ, hgeti]

theorem pyIndexJ_arr_out (pts : List String) (i : Nat) (hi : pts.length ≤ i) :
    pyIndexJ (.arr (pts.map Json.str)) i = .error .indexError := by
  have hgeti : pts[i]? = none := by
    simp [List.getElem?_eq_none_iff, hi]
  simp [pyIndexJ, hgeti]

theorem tagPartsFrom_ok (pts ts : List String) (i : Nat)
    (h : i + ts.length ≤ pts.length) :
    tagPartsFrom (.arr (pts.map Json.str)) i (ts.map Json.str) =
      .ok (List.zipWith (fun t p => t ++ "/" ++ p) ts (pts.drop i)) := by
  induction ts generalizing i with
  | nil => simp [tagPartsFrom_nil]
  | cons t rest ih =>
      have hi : i < pts.length := by
        simp only [List.length_cons] at h
        omega
      have hdrop : pts.drop i = pts.get ⟨i, hi⟩ :: pts.drop (i + 1) :=
        List.drop_eq_get_cons hi
      have hrec := ih (i + 1) (by simp only [List.length_cons] at h; omega)
      rw [List.map_cons, tagPartsFrom_cons,
        show asStr (Json.str t) = .ok t from rfl, except_bind_ok,
        pyIndexJ_arr_in pts i hi, except_bind_ok,
        show asStr (Json.str (pts.get ⟨i, hi⟩)) = .ok (pts.get ⟨i, hi⟩) from rfl,
        except_bind_ok, hrec, except_bind_ok, hdrop, List.zipWith_cons_cons]

theorem tagPartsFrom_err (pts rest : List String) (t : String) (i : Nat)
    (h : pts.length < i + rest.length + 1) :
    tagPartsFrom (.arr (pts.map Json.str)) i ((t :: rest).map Json.str) =
      .error .indexError := by
  induction rest generalizing i t with
  | nil =>
      have hi : pts.length ≤ i := by
        simp only [List.length_nil] at h
        omega
      rw [List.map_cons, tagPartsFrom_cons,
        show asStr (Json.str t) = .ok t from rfl, except_bind_ok,
        pyIndexJ_arr_out pts i hi, except_bind_err]
  | cons t1 rest1 ih =>
      by_cases hi : i < pts.length
      · have hrec := ih t1 (i + 1)
          (by simp only [List.length_cons] at h ⊢; omega)
        rw [List.map_cons, tagPartsFrom_cons,
          show asStr (Json.str t) = .ok t from rfl, except_bind_ok,
          pyIndexJ_arr_in pts i hi, except_bind_ok,
          show asStr (Json.str (pts.get ⟨i, hi⟩)) = .ok (pts.get ⟨i, hi⟩) from rfl,
          except_bind_ok, hrec, except_bind_err]
      · rw [List.map_cons, tagPartsFrom_cons,
          show asStr (Json.str t) = .ok t from rfl, except_bind_ok,
          pyIndexJ_arr_out pts i (by omega), except_bind_err]

theorem tagged_sentence_of_falsy (st : SentObj) (v : Json)
    (hlk : lookupOD st "pos_tags" = some v) (hv : pyFalsy v = true) :
    tagged_sentence st = .ok none := by
  simp [tagged_sentence, getattrS, hlk, hv]

theorem tagged_sentence_typed_ok (st : SentObj) (ts pts : List String)
    (htk : lookupOD st "tokens" = some (.arr (ts.map Json.str)))
    (hpt : lookupOD st "pos_tags" = some (.arr (pts.map Json.str)))
    (hne : pts ≠ []) (hlen : ts.length ≤ pts.length) :
    tagged_sentence st = .ok (some (String.intercalate " "
      (List.zipWith (fun t p => t ++ "/" ++ p) ts pts))) := by
  have hfalsy : pyFalsy (.arr (pts.map Json.str)) = false := by
    simp [pyFalsy, List.isEmpty_iff, hne]
  have hparts := tagPartsFrom_ok pts ts 0 (by omega)
  rw [List.drop_zero] at hparts
  simp [tagged_sentence, getattrS, hpt, hfalsy, htk, pyIter, hparts]

theorem tagged_sentence_no_tokens (st : SentObj) (v : Json)
    (hpt : lookupOD st "pos_tags" = some v) (hv : pyFalsy v = false)
    (htk : lookupOD st "tokens" = none) :
    tagged_sentence st = .error .attributeError := by
  simp [tagged_sentence, getattrS, hpt, hv, htk]

theorem tagged_sentence_tokens_not_iterable (st : SentObj) (v : Json)
    (hpt : lookupOD st "pos_tags" = some v) (hv : pyFalsy v = false)
    (htk : lookupOD st "tokens" = some Json.null) :
    tagged_sentence st = .error .typeError := by
  simp [tagged_sentence, getattrS, hpt, hv, htk, pyIter]

theorem tagged_sentence_index_err (st : SentObj) (ts pts : List String)
    (htk : lookupOD st "tokens" = some (.arr (ts.map Json.str)))
    (hpt : lookupOD st "pos_tags" = some (.arr (pts.map Json.str)))
    (hne : pts ≠ []) (hlen : pts.length < ts.length) :
    tagged_sentence st = .error .indexError := by
  have hfalsy : pyFalsy (.arr (pts.map Json.str)) = false := by
    simp [pyFalsy, List.isEmpty_iff, hne]
  cases ts with
  | nil => simp at hlen
  | cons t rest =>
      have herr := tagPartsFrom_err pts rest t 0
        (by simp only [List.length_cons] at hlen ⊢; omega)
      simp only [List.map_cons] at herr
      simp [tagged_sentence, getattrS, hpt, hfalsy, htk, pyIter, herr]

theorem document_from_json_eq (dj : List (String × Json)) (benchmark : Bool)
    (sv : Json) (hd : "__dict__" ∉ dj.map Prod.fst)
    (hs : lookupLast dj "sentences" = some sv)
    (sentItems : List Json) (hit : pyIter sv = .ok sentItems)
    (sents : List SentObj) (hm : sentItems.mapM json_to_class_sentence = .ok sents) :
    document_from_json (.obj dj) benchmark = .ok (finalDoc dj sents benchmark) := by
  unfold document_from_json
  rw [json_to_class_document_eq dj hd]
  have hlk : getattrD (docFold dj) "sentences" = .ok (DValue.js sv) := by
    simp [getattrD, lookupOD_docFold, hs]
  show (Except.ok (docFold dj) >>= _ : Except PyErr DocObj) = _
  rw [show ∀ x (f : DocObj → Except PyErr DocObj), (Except.ok x >>= f) = f x
        from fun x f => rfl]
  simp only [hlk]
  show (Except.ok (DValue.js sv) >>= _ : Except PyErr DocObj) = _
  rw [show ∀ x (f : DValue → Except PyErr DocObj), (Except.ok x >>= f) = f x
        from fun x f => rfl]
  simp only [hit]
  show (Except.ok sentItems >>= _ : Except PyErr DocObj) = _
  rw [show ∀ (x : List Json) (f : List Json → Except PyErr DocObj),
        (Except.ok x >>= f) = f x from fun x f => rfl]
  simp only [hm]
  show (Except.ok sents >>= _ : Except PyErr DocObj) = _
  rw [show ∀ (x : List SentObj) (f : List SentObj → Except PyErr DocObj),
        (Except.ok x >>= f) = f x from fun x f => rfl]
  have hset : setattrD (docFold dj) "sentences" (DValue.sents sents) =
      .ok (insertOD (docFold dj) "sentences" (DValue.sents sents)) := by
    simp [setattrD]
  rw [hset]
  show (Except.ok _ >>= _ : Except PyErr DocObj) = _
  rw [show ∀ (x : DocObj) (f : DocObj → Except PyErr DocObj),
        (Except.ok x >>= f) = f x from fun x f => rfl]
  cases benchmark with
  | true => rfl
  | false =>
      show setattrD _ "run_time_stats" (DValue.js Json.null) = _
      simp [setattrD, finalDoc]

theorem sentence_to_dict_foldl (st : SentObj) : ∀ acc : SentObj,
    (odKeys acc ++ odKeys st).Nodup →
    st.foldl (fun a kv => if kv.2.isNull then a else insertOD a kv.1 kv.2) acc =
      acc ++ st.filter (fun kv => !kv.2.isNull) := by
  induction st with
  | nil => intro acc _; simp
  | cons hd tl ih =>
      intro acc hnd
      obtain ⟨k, v⟩ := hd
      simp only [List.foldl_cons]
      by_cases hv : v.isNull = true
      · rw [if_pos hv]
        have hnd2 : (odKeys acc ++ odKeys tl).Nodup := by
          refine List.Nodup.sublist ?_ hnd
          exact List.Sublist.append_left (List.sublist_cons_self _ _) _
        rw [ih acc hnd2, List.filter_cons_of_neg (by simp [hv])]
      · rw [if_neg hv]
        have hk_acc : k ∉ odKeys acc := by
          intro hmem
          exact List.disjoint_of_nodup_append hnd hmem (by simp)
        rw [insertOD_of_not_mem acc k v hk_acc]
        have hkeys : odKeys (acc ++ [(k, v)]) = odKeys acc ++ [k] := by
          simp [odKeys]
        have hnd2 : (odKeys (acc ++ [(k, v)]) ++ odKeys tl).Nodup := by
          rw [hkeys, List.append_assoc, List.singleton_append]
          simpa using hnd
        rw [ih (acc ++ [(k, v)]) hnd2,
          List.filter_cons_of_pos (by simp [Bool.not_eq_true] at hv ⊢; simp [hv])]
        simp

theorem sentence_to_dict_eq (st : SentObj) (hnd : (odKeys st).Nodup) :
    sentence_to_dict st = st.filter (fun kv => !kv.2.isNull) := by
  have h := sentence_to_dict_foldl st [] (by simpa using hnd)
  simpa [sentence_to_dict] using h

theorem mem_odKeys_to_dict_foldl (st : SentObj) : ∀ (acc : SentObj) (k : String),
    k ∈ odKeys (st.foldl (fun a kv => if kv.2.isNull then a else insertOD a kv.1 kv.2) acc) →
    k ∈ odKeys acc ∨ k ∈ odKeys st := by
  induction st with
  | nil =>
      intro acc k h
      simp only [List.foldl_nil] at h
      exact Or.inl h
  | cons hd tl ih =>
      intro acc k h
      obtain ⟨k0, v0⟩ := hd
      simp only [List.foldl_cons] at h
      by_cases hv : v0.isNull = true
      · rw [if_pos hv] at h
        rcases ih acc k h with h2 | h2
        · exact Or.inl h2
        · exact Or.inr (by simp [h2])
      · rw [if_neg hv] at h
        rcases ih (insertOD acc k0 v0) k h with h2 | h2
        · rw [odKeys_insertOD] at h2
          by_cases hmem : k0 ∈ odKeys acc
          · rw [if_pos hmem] at h2
            exact Or.inl h2
          · rw [if_neg hmem] at h2
            rcases List.mem_append.mp h2 with h3 | h3
            · exact Or.inl h3
            · simp only [List.mem_singleton] at h3
              exact Or.inr (by simp [h3])
        · exact Or.inr (by simp [h2])

theorem mem_odKeys_sentence_to_dict (st : SentObj) (k : String)
    (h : k ∈ odKeys (sentence_to_dict st)) : k ∈ odKeys st := by
  rcases mem_odKeys_to_dict_foldl st [] k (by simpa [sentence_to_dict] using h)
    with h2 | h2
  · simp at h2
  · exact h2

/-- How one present `Document` attribute appears in `Document.to_dict`'s
output: the `sentences` list of `Sentence` objects becomes a list of their
`to_dict` mappings, every other attribute is stored unchanged. -/
def docDictEntry : String × DValue → String × DValue := fun kv =>
  if kv.1 = "sentences" then
    match kv.2 with
    | DValue.sents ss =>
        (kv.1, DValue.js (.arr (ss.map (fun s => Json.obj (sentence_to_dict s)))))
    | DValue.js j => (kv.1, DValue.js j)
  else kv

theorem docDictEntry_fst (kv : String × DValue) : (docDictEntry kv).1 = kv.1 := by
  obtain ⟨k, v⟩ := kv
  unfold docDictEntry
  split
  · split <;> rfl
  · rfl

theorem odKeys_map_docDictEntry (l : List (String × DValue)) :
    odKeys (l.map docDictEntry) = odKeys l := by
  induction l with
  | nil => rfl
  | cons hd tl ih =>
      simp only [List.map_cons, odKeys, List.map] at ih ⊢
      rw [docDictEntry_fst]
      exact congrArg _ ih

theorem document_to_dict_foldl (st : DocObj) : ∀ acc : DocObj,
    (odKeys acc ++ odKeys st).Nodup →
    (∀ j, ("sentences", DValue.js j) ∈ st → docValPresent (DValue.js j) = false) →
    st.foldlM docDictStep acc =
      .ok (acc ++ (st.filter (fun kv => docValPresent kv.2)).map docDictEntry) := by
  induction st with
  | nil => intro acc _ _; simp
  | cons hd tl ih =>
      intro acc hnd hwf
      obtain ⟨k, v⟩ := hd
      have hnd2 : (odKeys acc ++ odKeys tl).Nodup := by
        refine List.Nodup.sublist ?_ hnd
        exact List.Sublist.append_left (List.sublist_cons_self _ _) _
      have hwf2 : ∀ j, ("sentences", DValue.js j) ∈ tl →
          docValPresent (DValue.js j) = false :=
        fun j hj => hwf j (by simp [hj])
      show docDictStep acc (k, v) >>= _ = _
      by_cases hp : docValPresent v = true
      · have hk_acc : k ∉ odKeys acc := by
          intro hmem
          exact List.disjoint_of_nodup_append hnd hmem (by simp)
        have hkeys : odKeys (acc ++ [docDictEntry (k, v)]) = odKeys acc ++ [k] := by
          simp [odKeys, docDictEntry_fst (k, v)]
        have hnd3 : (odKeys (acc ++ [docDictEntry (k, v)]) ++ odKeys tl).Nodup := by
          rw [hkeys, List.append_assoc, List.singleton_append]
          simpa using hnd
        have hrec := ih (acc ++ [docDictEntry (k, v)]) hnd3 hwf2
        have hstep : docDictStep acc (k, v) = .ok (acc ++ [docDictEntry (k, v)]) := by
          unfold docDictStep
          rw [if_pos hp]
          by_cases hk : k = "sentences"
          · subst hk
            cases v with
            | js j =>
                exact absurd hp (by simp [hwf j (by simp)])
            | sents ss =>
                rw [if_pos rfl]
                show Except.ok (insertOD acc "sentences"
                  (DValue.js (Json.arr (ss.map (fun s => Json.obj (sentence_to_dict s)))))) = _
                rw [insertOD_of_not_mem acc _ _ hk_acc]
                have hde : docDictEntry ("sentences", DValue.sents ss) =
                    ("sentences", DValue.js (.arr (ss.map (fun s => Json.obj (sentence_to_dict s))))) := by
                  simp [docDictEntry]
                rw [hde]
          · rw [if_neg hk]
            show Except.ok (insertOD acc k v) = _
            rw [insertOD_of_not_mem acc _ _ hk_acc]
            have hde : docDictEntry (k, v) = (k, v) := by
              simp [docDictEntry, hk]
            rw [hde]
        rw [hstep, except_bind_ok, hrec, List.filter_cons_of_pos (by simp [hp]),
          List.map_cons]
        simp
      · have hstep : docDictStep acc (k, v) = .ok acc := by
          unfold docDictStep
          rw [if_neg hp]
        rw [hstep, except_bind_ok, ih acc hnd2 hwf2,
          List.filter_cons_of_neg (by simp [hp])]

theorem document_to_dict_eq (st : DocObj) (hnd : (odKeys st).Nodup)
    (hwf : ∀ j, ("sentences", DValue.js j) ∈ st → docValPresent (DValue.js j) = false) :
    document_to_dict st =
      .ok ((st.filter (fun kv => docValPresent kv.2)).map docDictEntry) := by
  have h := document_to_dict_foldl st [] (by simpa using hnd) hwf
  simpa [document_to_dict] using h

theorem except_bind_eq_ok {α β : Type} {x : Except PyErr α} {f : α → Except PyErr β}
    {b : β} (h : (x >>= f) = .ok b) : ∃ a, x = .ok a ∧ f a = .ok b := by
  cases x with
  | ok a => exact ⟨a, rfl, h⟩
  | error e =>
      simp only [except_bind_err] at h
      cases h

theorem setattrB_ok_inv {blocked : List String} {st : SentObj} {k : String}
    {v : Json} {s : SentObj} (hk : k ≠ "__dict__")
    (h : setattrB blocked st k v = .ok s) :
    k ∉ blocked ∧ s = insertOD st k v := by
  unfold setattrB at h
  rw [if_neg hk] at h
  by_cases hb : k ∈ blocked
  · rw [if_pos hb] at h
    cases h
  · rw [if_neg hb] at h
    injection h with hs
    exact ⟨hb, hs.symm⟩

theorem applyAssignsB_ok_blocked_not_mem (blocked : List String)
    (asgns : List (String × Json)) :
    ∀ (st0 st : SentObj), "__dict__" ∉ asgns.map Prod.fst →
    applyAssignsB blocked st0 asgns = .ok st →
    ∀ k, k ∈ blocked → k ∉ odKeys st0 → k ∉ odKeys st := by
  induction asgns with
  | nil =>
      intro st0 st _ h k _ h0
      have hst : st0 = st := by
        simpa [applyAssignsB] using h
      subst hst
      exact h0
  | cons hd tl ih =>
      intro st0 st hd_mem h k hk h0
      obtain ⟨k0, v0⟩ := hd
      simp only [List.map_cons, List.mem_cons] at hd_mem
      push_neg at hd_mem
      rw [show applyAssignsB blocked st0 ((k0, v0) :: tl) =
            setattrB blocked st0 k0 v0 >>= fun s => applyAssignsB blocked s tl
          from rfl] at h
      obtain ⟨s1, hs1, hrest⟩ := except_bind_eq_ok h
      obtain ⟨hb0, hs1eq⟩ := setattrB_ok_inv (Ne.symm hd_mem.1) hs1
      subst hs1eq
      refine ih (insertOD st0 k0 v0) st hd_mem.2 hrest k hk ?_
      rw [odKeys_insertOD]
      by_cases hmem : k0 ∈ odKeys st0
      · rw [if_pos hmem]
        exact h0
      · rw [if_neg hmem]
        intro hc
        rcases List.mem_append.mp hc with hc1 | hc2
        · exact h0 hc1
        · simp only [List.mem_singleton] at hc2
          subst hc2
          exact hb0 hk

theorem getattrS_foldInsert (kvs : List (String × Json)) (k : String) :
    getattrS (foldInsert [] kvs) k =
      match lookupLast kvs k with
      | some v => .ok v
      | none => .error .attributeError := by
  unfold getattrS
  rw [lookupOD_foldInsert]
  cases lookupLast kvs k <;> rfl

theorem odKeys_foldInsert_nil (kvs : List (String × Json)) :
    odKeys (foldInsert [] kvs) = firstOccs (kvs.map Prod.fst) := by
  rw [odKeys_foldInsert, show odKeys ([] : SentObj) = [] from rfl,
    addKeys_nil_eq_firstOccs]
  rfl

/-- Claim C1, counterexample. The claim says assignment on an ordered
record never fails, but on a freshly constructed `Sentence` assigning the
name `"tagged_sentence"` raises `AttributeError`: the class's
`tagged_sentence` property has no setter, so the `object.__setattr__` call
inside `OrderedClass.__setattr__` rejects it. -/
theorem claim_C1_counterexample :
    setattrB Sentence.blockedNames (sentenceInit (Json.str "hi"))
      "tagged_sentence" (Json.str "x") = .error .attributeError := rfl

/-- Claim C1 (amended): for every finite sequence of field assignments on a
fresh ordered-record instance whose names avoid the class's setter-less
properties (`tagged_sentence` on `Sentence`; `Document` blocks nothing) and
the storage slot `"__dict__"`, no assignment fails, iterating the fields
yields the names in exactly first-assignment order, and a reassigned name
keeps its position while lookup returns its most recently assigned value. -/
theorem claim_C1_amended (blocked : List String) (asgns : List (String × Json))
    (h : ∀ p ∈ asgns, p.1 ∉ blocked ∧ p.1 ≠ "__dict__") :
    ∃ st, applyAssignsB blocked [] asgns = .ok st
      ∧ odKeys st = firstOccs (asgns.map Prod.fst)
      ∧ ∀ k, lookupOD st k = lookupLast asgns k := by
  refine ⟨foldInsert [] asgns, applyAssignsB_ok blocked asgns [] h,
    odKeys_foldInsert_nil asgns, ?_⟩
  intro k
  rw [lookupOD_foldInsert]
  cases lookupLast asgns k <;> rfl

/-- Claim C1, witness: a concrete assignment sequence with a reassignment,
run through the amended theorem. -/
theorem claim_C1_witness :
    ∃ st, applyAssignsB Sentence.blockedNames []
        [("raw_sentence", Json.str "a"), ("tokens", Json.null),
         ("raw_sentence", Json.str "b")] = .ok st
      ∧ odKeys st = ["raw_sentence", "tokens"]
      ∧ lookupOD st "raw_sentence" = some (Json.str "b") := by
  obtain ⟨st, h1, h2, h3⟩ := claim_C1_amended Sentence.blockedNames
    [("raw_sentence", Json.str "a"), ("tokens", Json.null),
     ("raw_sentence", Json.str "b")]
    (by intro p hp; refine ⟨?_, ?_⟩ <;> · fin_cases hp <;> decide)
  refine ⟨st, h1, ?_, ?_⟩
  · rw [h2]
    rfl
  · rw [h3 "raw_sentence"]
    rfl

/-- Claim C2, counterexample: deserializing with benchmark false does NOT
clear `errors`; only `run_time_stats` is set to `None`. Here the payload
populates both, and the resulting Document still carries the errors list. -/
theorem claim_C2_counterexample :
    document_from_json (Json.obj
        [("raw_text", Json.str "t"), ("sentences", Json.arr []),
         ("errors", Json.arr [Json.str "boom"]),
         ("run_time_stats", Json.obj [("tok", Json.num 1)])]) false =
      .ok [("raw_text", DValue.js (Json.str "t")),
           ("sentences", DValue.sents []),
           ("errors", DValue.js (Json.arr [Json.str "boom"])),
           ("run_time_stats", DValue.js Json.null)]
    ∧ getattrD [("raw_text", DValue.js (Json.str "t")),
           ("sentences", DValue.sents []),
           ("errors", DValue.js (Json.arr [Json.str "boom"])),
           ("run_time_stats", DValue.js Json.null)] "errors" =
        .ok (DValue.js (Json.arr [Json.str "boom"])) := ⟨rfl, rfl⟩

/-- Claim C2 (amended): with `include_benchmark = false`, `run_time_stats`
is cleared (set to `None`) on the resulting Document, but `errors` is NOT
cleared — it keeps whatever value the payload supplied. (Stated for
payloads that deserialize successfully and avoid the special `"__dict__"`
key.) -/
theorem claim_C2_amended (dj : List (String × Json)) (sv : Json)
    (sentItems : List Json) (sents : List SentObj)
    (hd : "__dict__" ∉ dj.map Prod.fst)
    (hs : lookupLast dj "sentences" = some sv)
    (hit : pyIter sv = .ok sentItems)
    (hm : sentItems.mapM json_to_class_sentence = .ok sents) :
    ∃ doc, document_from_json (.obj dj) false = .ok doc
      ∧ lookupOD doc "run_time_stats" = some (DValue.js Json.null)
      ∧ ∀ v, lookupLast dj "errors" = some v →
          lookupOD doc "errors" = some (DValue.js v) := by
  refine ⟨finalDoc dj sents false,
    document_from_json_eq dj false sv hd hs sentItems hit sents hm, ?_, ?_⟩
  · simp [finalDoc, lookupOD_insertOD]
  · intro v hv
    simp [finalDoc, lookupOD_insertOD, lookupOD_docFold, hv]

/-- Claim C2, witness: the amended theorem applied to the concrete payload
of the counterexample. -/
theorem claim_C2_witness :
    ∃ doc, document_from_json (Json.obj
        [("raw_text", Json.str "t"), ("sentences", Json.arr []),
         ("errors", Json.arr [Json.str "boom"]),
         ("run_time_stats", Json.obj [("tok", Json.num 1)])]) false = .ok doc
      ∧ lookupOD doc "run_time_stats" = some (DValue.js Json.null)
      ∧ ∀ v, lookupLast
            [("raw_text", Json.str "t"), ("sentences", Json.arr []),
             ("errors", Json.arr [Json.str "boom"]),
             ("run_time_stats", Json.obj [("tok", Json.num 1)])] "errors" = some v →
          lookupOD doc "errors" = some (DValue.js v) :=
  claim_C2_amended
    [("raw_text", Json.str "t"), ("sentences", Json.arr []),
     ("errors", Json.arr [Json.str "boom"]),
     ("run_time_stats", Json.obj [("tok", Json.num 1)])]
    (Json.arr []) [] [] (by decide) rfl rfl rfl

/-- Claim C3, counterexample. The code has no `DeserializationError` class
at all. A payload with a well-formed `sentences` list but no `raw_text`
does not fail — it silently yields a Document lacking that field — and a
payload missing `sentences` fails with a plain `AttributeError`. -/
theorem claim_C3_counterexample :
    document_from_json (Json.obj
        [("sentences", Json.arr [Json.obj [("raw_sentence", Json.str "a")]])]) false =
      .ok [("sentences", DValue.sents [[("raw_sentence", Json.str "a")]]),
           ("run_time_stats", DValue.js Json.null)]
    ∧ document_from_json (Json.obj [("raw_text", Json.str "x")]) false =
        .error .attributeError := ⟨rfl, rfl⟩

/-- Claim C3 (amended): there is no `DeserializationError`. A payload
missing `sentences` fails with `AttributeError` (reading the attribute on
the deserialized object); a `sentences` value that is not iterable (e.g. a
number) fails with `TypeError`; a missing `raw_text` causes no failure at
all — deserialization succeeds and yields a Document without that field. -/
theorem claim_C3_amended :
    (∀ (dj : List (String × Json)) (b : Bool),
        "sentences" ∉ dj.map Prod.fst → "__dict__" ∉ dj.map Prod.fst →
        document_from_json (.obj dj) b = .error .attributeError)
    ∧ (∀ (dj : List (String × Json)) (b : Bool) (n : Int),
        "__dict__" ∉ dj.map Prod.fst →
        lookupLast dj "sentences" = some (.num n) →
        document_from_json (.obj dj) b = .error .typeError)
    ∧ document_from_json (Json.obj
        [("sentences", Json.arr [Json.obj [("raw_sentence", Json.str "a")]])]) false =
        .ok [("sentences", DValue.sents [[("raw_sentence", Json.str "a")]]),
             ("run_time_stats", DValue.js Json.null)] := by
  refine ⟨?_, ?_, rfl⟩
  · intro dj b hs hd
    unfold document_from_json
    rw [json_to_class_document_eq dj hd, except_bind_ok]
    have hget : getattrD (docFold dj) "sentences" = .error .attributeError := by
      unfold getattrD
      rw [lookupOD_docFold, (lookupLast_eq_none_iff dj "sentences").mpr hs]
      rfl
    rw [hget, except_bind_err]
  · intro dj b n hd hs
    unfold document_from_json
    rw [json_to_class_document_eq dj hd, except_bind_ok]
    have hget : getattrD (docFold dj) "sentences" = .ok (DValue.js (.num n)) := by
      unfold getattrD
      rw [lookupOD_docFold, hs]
      rfl
    rw [hget, except_bind_ok]
    rfl

/-- Claim C3, witness: the amended theorem's two failure modes at concrete
inputs. -/
theorem claim_C3_witness :
    document_from_json (Json.obj [("raw_text", Json.str "x")]) false =
        .error .attributeError
    ∧ document_from_json (Json.obj
        [("raw_text", Json.str "x"), ("sentences", Json.num 3)]) false =
        .error .typeError :=
  ⟨claim_C3_amended.1 [("raw_text", Json.str "x")] false (by decide) (by decide),
   claim_C3_amended.2.1 [("raw_text", Json.str "x"), ("sentences", Json.num 3)]
     false 3 (by decide) rfl⟩

/-- Claim C4 (confirmed): a sentence payload may contain keys unknown to
the client with any JSON value; deserialization does not fail and every
key's (last) payload value is retrievable by name on the resulting
`Sentence` object. (The payload must otherwise be assignable: no key may be
the setter-less property name `"tagged_sentence"` or the storage slot
`"__dict__"` — both are names the client knows, so every unknown key
qualifies.) -/
theorem claim_C4_unknown_fields_stored (dj : List (String × Json))
    (sjs : List Json) (benchmark : Bool)
    (hd : "__dict__" ∉ dj.map Prod.fst)
    (hs : lookupLast dj "sentences" = some (.arr sjs))
    (hwf : ∀ s ∈ sjs, ∃ kvs, s = Json.obj kvs ∧
            ∀ p ∈ kvs, p.1 ≠ "tagged_sentence" ∧ p.1 ≠ "__dict__") :
    ∃ doc sents, document_from_json (.obj dj) benchmark = .ok doc
      ∧ lookupOD doc "sentences" = some (DValue.sents sents)
      ∧ List.Forall₂ (fun sj st => ∀ kvs, sj = Json.obj kvs →
            ∀ k v, lookupLast kvs k = some v → getattrS st k = .ok v)
          sjs sents := by
  obtain ⟨sents, hm, hrel⟩ := mapM_json_to_class_sentence_ok sjs hwf
  refine ⟨finalDoc dj sents benchmark, sents,
    document_from_json_eq dj benchmark _ hd hs sjs rfl sents hm, ?_, ?_⟩
  · cases benchmark <;> simp [finalDoc, lookupOD_insertOD]
  · refine hrel.imp ?_
    rintro sj st ⟨kvs, hsj, hst⟩ kvs2 hkvs2 k v hlk
    subst hsj
    injection hkvs2 with hkvs2
    subst hkvs2
    subst hst
    rw [getattrS_foldInsert, hlk]

/-- Claim C4, witness: a sentence payload carrying the unknown key
`"future_annotation"` with value `[1, 2, 3]` deserializes and stores it. -/
theorem claim_C4_witness :
    ∃ doc sents, document_from_json (Json.obj
        [("raw_text", Json.str "t"),
         ("sentences", Json.arr
           [Json.obj [("raw_sentence", Json.str "a"),
             ("future_annotation", Json.arr [Json.num 1, Json.num 2, Json.num 3])]])])
        false = .ok doc
      ∧ lookupOD doc "sentences" = some (DValue.sents sents)
      ∧ List.Forall₂ (fun sj st => ∀ kvs, sj = Json.obj kvs →
            ∀ k v, lookupLast kvs k = some v → getattrS st k = .ok v)
          [Json.obj [("raw_sentence", Json.str "a"),
             ("future_annotation", Json.arr [Json.num 1, Json.num 2, Json.num 3])]]
          sents :=
  claim_C4_unknown_fields_stored
    [("raw_text", Json.str "t"),
     ("sentences", Json.arr
       [Json.obj [("raw_sentence", Json.str "a"),
         ("future_annotation", Json.arr [Json.num 1, Json.num 2, Json.num 3])]])]
    [Json.obj [("raw_sentence", Json.str "a"),
       ("future_annotation", Json.arr [Json.num 1, Json.num 2, Json.num 3])]]
    false (by decide) rfl
    (by
      intro s hs
      simp only [List.mem_singleton] at hs
      subst hs
      exact ⟨_, rfl, by intro p hp; fin_cases hp <;> exact ⟨by decide, by decide⟩⟩)

/-- The presence predicate used by the specification's round-trip claim:
a field value counts as present when it is non-null and non-empty. Defined
from the spec's words, to state claim C5 against the code's behaviour. -/
def specPresentJson : Json → Bool
  | .null => false
  | .obj [] => false
  | .arr [] => false
  | _ => true

/-- Claim C5, counterexample. At the sentence level `to_dict` filters only
`is not None`, so a sentence field holding an empty list IS serialized:
the resulting sentence mapping has the key `"tokens"` even though its
value `[]` is not present under the claim's non-null/non-empty reading —
an extra key the claim forbids. -/
theorem claim_C5_counterexample :
    document_to_dict
        [("raw_text", DValue.js (Json.str "a")),
         ("sentences", DValue.sents
           [[("raw_sentence", Json.str "a"), ("tokens", Json.arr [])]])] =
      .ok [("raw_text", DValue.js (Json.str "a")),
           ("sentences", DValue.js (Json.arr
             [Json.obj [("raw_sentence", Json.str "a"), ("tokens", Json.arr [])]]))]
    ∧ specPresentJson (Json.arr []) = false
    ∧ (sentence_to_dict
          [("raw_sentence", Json.str "a"), ("tokens", Json.arr [])]).map Prod.fst ≠
        ([("raw_sentence", Json.str "a"), ("tokens", Json.arr [])].filter
          (fun kv => specPresentJson kv.2)).map Prod.fst := by
  refine ⟨rfl, rfl, ?_⟩
  intro h
  rw [show (sentence_to_dict
        [("raw_sentence", Json.str "a"), ("tokens", Json.arr [])]).map Prod.fst =
      ["raw_sentence", "tokens"] from rfl,
    show ([("raw_sentence", Json.str "a"), ("tokens", Json.arr [])].filter
        (fun kv => specPresentJson kv.2)).map Prod.fst = ["raw_sentence"] from rfl] at h
  cases h

/-- Claim C5 (amended): `Document.to_dict` keeps, in field order, exactly
the fields whose value is non-null and non-empty (`{}` or `[]` excluded),
replacing the sentence list by the list of sentence mappings with the same
keys; but `Sentence.to_dict` filters only `is not None`, so a sentence
mapping keeps empty collections: its key set is exactly the non-None
fields, not the non-empty ones. -/
theorem claim_C5_amended (st : DocObj) (hnd : (odKeys st).Nodup)
    (hwf : ∀ j, ("sentences", DValue.js j) ∈ st →
        docValPresent (DValue.js j) = false) :
    document_to_dict st =
        .ok ((st.filter (fun kv => docValPresent kv.2)).map docDictEntry)
      ∧ odKeys ((st.filter (fun kv => docValPresent kv.2)).map docDictEntry) =
          odKeys (st.filter (fun kv => docValPresent kv.2))
      ∧ ∀ s : SentObj, (odKeys s).Nodup →
          sentence_to_dict s = s.filter (fun kv => !kv.2.isNull) :=
  ⟨document_to_dict_eq st hnd hwf,
   odKeys_map_docDictEntry _,
   fun s hs => sentence_to_dict_eq s hs⟩

/-- Claim C5, witness: the amended theorem applied to the counterexample's
document. -/
theorem claim_C5_witness :
    document_to_dict
        [("raw_text", DValue.js (Json.str "a")),
         ("sentences", DValue.sents
           [[("raw_sentence", Json.str "a"), ("tokens", Json.arr [])]])] =
        .ok (([("raw_text", DValue.js (Json.str "a")),
              ("sentences", DValue.sents
                [[("raw_sentence", Json.str "a"), ("tokens", Json.arr [])]])].filter
                (fun kv => docValPresent kv.2)).map docDictEntry)
      ∧ odKeys (([("raw_text", DValue.js (Json.str "a")),
              ("sentences", DValue.sents
                [[("raw_sentence", Json.str "a"), ("tokens", Json.arr [])]])].filter
                (fun kv => docValPresent kv.2)).map docDictEntry) =
          odKeys ([("raw_text", DValue.js (Json.str "a")),
              ("sentences", DValue.sents
                [[("raw_sentence", Json.str "a"), ("tokens", Json.arr [])]])].filter
                (fun kv => docValPresent kv.2))
      ∧ ∀ s : SentObj, (odKeys s).Nodup →
          sentence_to_dict s = s.filter (fun kv => !kv.2.isNull) :=
  claim_C5_amended
    [("raw_text", DValue.js (Json.str "a")),
     ("sentences", DValue.sents
       [[("raw_sentence", Json.str "a"), ("tokens", Json.arr [])]])]
    (by decide)
    (by
      intro j hj
      simp only [List.mem_cons, List.not_mem_nil, or_false, Prod.mk.injEq] at hj
      rcases hj with ⟨h1, _⟩ | ⟨_, h2⟩
      · exact absurd h1 (by decide)
      · exact DValue.noConfusion h2)

/-- Claim C6 (confirmed): a non-200 HTTP response raises
`CodeqAPIError` carrying exactly the numeric status code and the reason
phrase (the message is `"%s; %s" % (status_code, reason)`), and the
response body is never parsed (the error depends only on status and
reason); a 200 response raises no API error: the body is parsed and
deserialized, and whatever failure deserialization can produce is never of
the API-error kind. -/
theorem claim_C6_api_error (resp : HttpResponse) (benchmark : Bool) :
    (resp.status_code ≠ 200 →
        run_request_response resp benchmark =
          .error (.codeqAPIError resp.status_code resp.reason))
    ∧ (resp.status_code = 200 → ∀ j, resp.bodyJson = some j →
        run_request_response resp benchmark = document_from_json j benchmark
        ∧ ∀ e, document_from_json j benchmark = .error e →
            e.isAPIError = false) := by
  constructor
  · intro h
    simp [run_request_response, h]
  · intro h j hj
    exact ⟨by simp [run_request_response, h, hj],
      fun e he => noAPIError_document_from_json j benchmark e he⟩

/-- Claim C6, witness: a 401 response with reason "Unauthorized" raises the
API error carrying both; a 200 response is deserialized. -/
theorem claim_C6_witness :
    run_request_response ⟨401, "Unauthorized", some (Json.str "body")⟩ false =
        .error (.codeqAPIError 401 "Unauthorized")
    ∧ run_request_response
        ⟨200, "OK", some (Json.obj [("raw_text", Json.str "t"), ("sentences", Json.arr [])])⟩ false =
        document_from_json
          (Json.obj [("raw_text", Json.str "t"), ("sentences", Json.arr [])]) false :=
  ⟨(claim_C6_api_error ⟨401, "Unauthorized", some (Json.str "body")⟩ false).1
      (by decide),
   ((claim_C6_api_error
      ⟨200, "OK", some (Json.obj [("raw_text", Json.str "t"), ("sentences", Json.arr [])])⟩
      false).2 rfl _ rfl).1⟩

theorem splitOnComma_no_comma (cs : List Char) (h : (',' : Char) ∉ cs) :
    splitOnComma cs = [cs] := by
  induction cs with
  | nil => rfl
  | cons c rest ih =>
      simp only [List.mem_cons] at h
      push_neg at h
      rw [show splitOnComma (c :: rest) =
          (match splitOnComma rest with
           | [] => [[]]
           | p :: ps => if c = ',' then [] :: p :: ps else (c :: p) :: ps) from rfl,
        ih h.2]
      simp [Ne.symm h.1]

theorem pySplitCommaWs_single (s : String) (h : (',' : Char) ∉ s.toList) :
    pySplitCommaWs s = [s] := by
  unfold pySplitCommaWs
  rw [splitOnComma_no_comma s.toList h]
  rfl

/-- Claim C7, counterexample. A convenience method and `analyze` with the
same single stage do NOT build the same request payload: the convenience
method sends the `pipeline` field as the bare string, while `analyze`
splits the string on commas and sends a one-element list, so the wire
values differ (`"tokenize"` vs `["tokenize"]`). -/
theorem claim_C7_counterexample :
    lookupOD (CodeqClient.tokenize ⟨"u", "k", CODEQ_API_ENDPOINT_LAST⟩ "hello")
        "pipeline" = some (Json.str "tokenize")
    ∧ lookupOD (CodeqClient.analyze ⟨"u", "k", CODEQ_API_ENDPOINT_LAST⟩ "hello"
        (.str "tokenize") false) "pipeline" = some (Json.arr [Json.str "tokenize"])
    ∧ CodeqClient.tokenize ⟨"u", "k", CODEQ_API_ENDPOINT_LAST⟩ "hello" ≠
        CodeqClient.analyze ⟨"u", "k", CODEQ_API_ENDPOINT_LAST⟩ "hello"
          (.str "tokenize") false := by
  have hsplit : pySplitCommaWs "tokenize" = ["tokenize"] :=
    pySplitCommaWs_single "tokenize" (by decide)
  have hnorm : normalizePipeline (.str "tokenize") = Json.arr [Json.str "tokenize"] := by
    rw [show normalizePipeline (.str "tokenize") =
        Json.arr ((pySplitCommaWs "tokenize").map Json.str) from rfl, hsplit]
    rfl
  have h1 : CodeqClient.analyze ⟨"u", "k", CODEQ_API_ENDPOINT_LAST⟩ "hello"
      (.str "tokenize") false =
      runRequestParams ⟨"u", "k", CODEQ_API_ENDPOINT_LAST⟩ "hello"
        (.arr [Json.str "tokenize"]) false := by
    unfold CodeqClient.analyze
    rw [hnorm]
  refine ⟨rfl, ?_, ?_⟩
  · rw [h1]
    rfl
  · intro h
    rw [h1] at h
    injection h with hp1 h
    injection h with hp2 h
    injection h with hp3 h
    injection h with hp4 h
    exact Json.noConfusion (congrArg Prod.snd hp4)

/-- Claim C7 (amended): each convenience method issues `__run_request` with
the `pipeline` field fixed to its single stage name as a bare string and
the default benchmark `false`; `analyze` with that same stage builds the
same payload except that its `pipeline` field is the one-element list
`[stage]` (the comma-split of the stage name) — all other fields agree. -/
theorem claim_C7_amended (c : CodeqClient) (text stage : String)
    (h : (',' : Char) ∉ stage.toList) :
    CodeqClient.analyze c text (.str stage) false =
        runRequestParams c text (.arr [Json.str stage]) false
    ∧ CodeqClient.analyze c text (.str stage) false =
        insertOD (runRequestParams c text (.str stage) false) "pipeline"
          (Json.arr [Json.str stage])
    ∧ lookupOD (runRequestParams c text (.str stage) false) "pipeline" =
        some (Json.str stage)
    ∧ lookupOD (CodeqClient.analyze c text (.str stage) false) "pipeline" =
        some (Json.arr [Json.str stage])
    ∧ CodeqClient.tokenize c text = runRequestParams c text (.str "tokenize") false
    ∧ CodeqClient.pos c text = runRequestParams c text (.str "pos") false
    ∧ CodeqClient.sentiment c text = runRequestParams c text (.str "sentiment") false := by
  have hsplit : pySplitCommaWs stage = [stage] := pySplitCommaWs_single stage h
  have hnorm : normalizePipeline (.str stage) = Json.arr [Json.str stage] := by
    rw [show normalizePipeline (.str stage) =
        Json.arr ((pySplitCommaWs stage).map Json.str) from rfl, hsplit]
    rfl
  have h1 : CodeqClient.analyze c text (.str stage) false =
      runRequestParams c text (.arr [Json.str stage]) false := by
    unfold CodeqClient.analyze
    rw [hnorm]
  refine ⟨h1, ?_, rfl, ?_, rfl, rfl, rfl⟩
  · rw [h1]
    rfl
  · rw [h1]
    rfl

/-- Claim C7, witness: the amended theorem at the stage "tokenize". -/
theorem claim_C7_witness :
    CodeqClient.analyze ⟨"u", "k", CODEQ_API_ENDPOINT_LAST⟩ "hello"
        (.str "tokenize") false =
        runRequestParams ⟨"u", "k", CODEQ_API_ENDPOINT_LAST⟩ "hello"
          (.arr [Json.str "tokenize"]) false
    ∧ CodeqClient.analyze ⟨"u", "k", CODEQ_API_ENDPOINT_LAST⟩ "hello"
        (.str "tokenize") false =
        insertOD (runRequestParams ⟨"u", "k", CODEQ_API_ENDPOINT_LAST⟩ "hello"
            (.str "tokenize") false) "pipeline" (Json.arr [Json.str "tokenize"])
    ∧ lookupOD (runRequestParams ⟨"u", "k", CODEQ_API_ENDPOINT_LAST⟩ "hello"
        (.str "tokenize") false) "pipeline" = some (Json.str "tokenize")
    ∧ lookupOD (CodeqClient.analyze ⟨"u", "k", CODEQ_API_ENDPOINT_LAST⟩ "hello"
        (.str "tokenize") false) "pipeline" = some (Json.arr [Json.str "tokenize"])
    ∧ CodeqClient.tokenize ⟨"u", "k", CODEQ_API_ENDPOINT_LAST⟩ "hello" =
        runRequestParams ⟨"u", "k", CODEQ_API_ENDPOINT_LAST⟩ "hello"
          (.str "tokenize") false
    ∧ CodeqClient.pos ⟨"u", "k", CODEQ_API_ENDPOINT_LAST⟩ "hello" =
        runRequestParams ⟨"u", "k", CODEQ_API_ENDPOINT_LAST⟩ "hello"
          (.str "pos") false
    ∧ CodeqClient.sentiment ⟨"u", "k", CODEQ_API_ENDPOINT_LAST⟩ "hello" =
        runRequestParams ⟨"u", "k", CODEQ_API_ENDPOINT_LAST⟩ "hello"
          (.str "sentiment") false :=
  claim_C7_amended ⟨"u", "k", CODEQ_API_ENDPOINT_LAST⟩ "hello" "tokenize" (by decide)

/-- Claim C8 (confirmed): the tagged-sentence view is derived, never
stored. (1) No state reachable from a constructed `Sentence` by successful
field assignments (avoiding the raw `"__dict__"` slot) ever serializes a
`tagged_sentence` key — the property is not in the instance dictionary, so
`to_dict` cannot emit it; likewise no deserialized `Sentence` carries it.
(2) Whenever the current `pos_tags` value is falsy (`None` or empty), the
view is `None`. (3) Whenever tokens and POS tags are string lists with at
least one tag and enough tags, the view is recomputed from the current
values: each token joined with its aligned tag by `'/'`, tokens separated
by spaces. -/
theorem claim_C8_tagged_sentence_derived :
    (∀ (rs : Json) (asgns : List (String × Json)) (st : SentObj),
        "__dict__" ∉ asgns.map Prod.fst →
        applyAssignsB Sentence.blockedNames (sentenceInit rs) asgns = .ok st →
        "tagged_sentence" ∉ odKeys (sentence_to_dict st))
    ∧ (∀ (data : List (String × Json)) (st : SentObj),
        "__dict__" ∉ data.map Prod.fst →
        json_to_class_sentence (.obj data) = .ok st →
        "tagged_sentence" ∉ odKeys (sentence_to_dict st))
    ∧ (∀ (st : SentObj) (v : Json),
        lookupOD st "pos_tags" = some v → pyFalsy v = true →
        tagged_sentence st = .ok none)
    ∧ (∀ (st : SentObj) (ts pts : List String),
        lookupOD st "tokens" = some (.arr (ts.map Json.str)) →
        lookupOD st "pos_tags" = some (.arr (pts.map Json.str)) →
        pts ≠ [] → ts.length ≤ pts.length →
        tagged_sentence st = .ok (some (String.intercalate " "
          (List.zipWith (fun t p => t ++ "/" ++ p) ts pts)))) := by
  refine ⟨?_, ?_, fun st v h1 h2 => tagged_sentence_of_falsy st v h1 h2,
    fun st ts pts h1 h2 h3 h4 => tagged_sentence_typed_ok st ts pts h1 h2 h3 h4⟩
  · intro rs asgns st hd hok hmem
    have h1 : "tagged_sentence" ∉ odKeys st := by
      refine applyAssignsB_ok_blocked_not_mem Sentence.blockedNames asgns
        (sentenceInit rs) st hd hok "tagged_sentence"
        (by simp [Sentence.blockedNames]) ?_
      intro hc
      simp only [sentenceInit, odKeys, List.map_cons, List.map_nil,
        List.mem_cons, List.not_mem_nil, or_false] at hc
      rcases hc with h | h <;> simp_all
    exact h1 (mem_odKeys_sentence_to_dict st _ hmem)
  · intro data st hd hok hmem
    have h2 : applyAssignsB Sentence.blockedNames [] data = .ok st := hok
    have h1 : "tagged_sentence" ∉ odKeys st := by
      refine applyAssignsB_ok_blocked_not_mem Sentence.blockedNames data
        [] st hd h2 "tagged_sentence" (by simp [Sentence.blockedNames]) (by simp)
    exact h1 (mem_odKeys_sentence_to_dict st _ hmem)

/-- Claim C8, witness: a fresh sentence with `pos_tags` still `None` gives
view `None`; after assigning concrete tokens and tags the view is the
joined string; and a reachable state serializes no `tagged_sentence` key. -/
theorem claim_C8_witness :
    tagged_sentence (sentenceInit (Json.str "a b")) = .ok none
    ∧ tagged_sentence
        [("raw_sentence", Json.str "a b"),
         ("tokens", Json.arr [Json.str "a", Json.str "b"]),
         ("pos_tags", Json.arr [Json.str "DT", Json.str "NN"])] =
        .ok (some "a/DT b/NN")
    ∧ ∀ st : SentObj,
        applyAssignsB Sentence.blockedNames (sentenceInit (Json.str "a b"))
          [("tokens", Json.arr [Json.str "a", Json.str "b"])] = .ok st →
        "tagged_sentence" ∉ odKeys (sentence_to_dict st) := by
  refine ⟨?_, ?_, ?_⟩
  · exact claim_C8_tagged_sentence_derived.2.2.1 (sentenceInit (Json.str "a b"))
      Json.null rfl rfl
  · have h := claim_C8_tagged_sentence_derived.2.2.2
      [("raw_sentence", Json.str "a b"),
       ("tokens", Json.arr [Json.str "a", Json.str "b"]),
       ("pos_tags", Json.arr [Json.str "DT", Json.str "NN"])]
      ["a", "b"] ["DT", "NN"] rfl rfl (by decide) (by decide)
    rw [h]
    rfl
  · intro st hok
    exact claim_C8_tagged_sentence_derived.1 (Json.str "a b")
      [("tokens", Json.arr [Json.str "a", Json.str "b"])] st (by decide) hok

/-- Claim C9 (confirmed): with a non-empty `pos_tags` list of tags, the
tagged-sentence view is well-defined exactly under the precondition that
`tokens` holds a token list no longer than the tag list: then every index
access `pos_tags[i]` with `i < len(tokens)` is in bounds and the view is
produced; with more tokens than tags the first out-of-bounds access raises
`IndexError`, and with `tokens` unset or `None` the iteration itself fails
(`AttributeError` / `TypeError`). -/
theorem claim_C9_tagged_sentence_bounds (st : SentObj) (pts : List String)
    (hpt : lookupOD st "pos_tags" = some (.arr (pts.map Json.str)))
    (hne : pts ≠ []) :
    (∀ ts : List String, lookupOD st "tokens" = some (.arr (ts.map Json.str)) →
        (ts.length ≤ pts.length → ∃ out, tagged_sentence st = .ok (some out))
        ∧ (pts.length < ts.length → tagged_sentence st = .error .indexError))
    ∧ (lookupOD st "tokens" = none → tagged_sentence st = .error .attributeError)
    ∧ (lookupOD st "tokens" = some Json.null →
        tagged_sentence st = .error .typeError) := by
  have hfalsy : pyFalsy (.arr (pts.map Json.str)) = false := by
    simp [pyFalsy, List.isEmpty_iff, hne]
  refine ⟨?_, fun h => tagged_sentence_no_tokens st _ hpt hfalsy h,
    fun h => tagged_sentence_tokens_not_iterable st _ hpt hfalsy h⟩
  intro ts htk
  exact ⟨fun hlen => ⟨_, tagged_sentence_typed_ok st ts pts htk hpt hne hlen⟩,
    fun hlen => tagged_sentence_index_err st ts pts htk hpt hne hlen⟩

/-- Claim C9, witness: the bounds theorem at a concrete sentence whose two
tokens are covered by two tags. -/
theorem claim_C9_witness :
    (∀ ts : List String,
        lookupOD [("tokens", Json.arr [Json.str "a", Json.str "b"]),
            ("pos_tags", Json.arr [Json.str "DT", Json.str "NN"])] "tokens" =
          some (.arr (ts.map Json.str)) →
        (ts.length ≤ (["DT", "NN"] : List String).length →
          ∃ out, tagged_sentence
            [("tokens", Json.arr [Json.str "a", Json.str "b"]),
             ("pos_tags", Json.arr [Json.str "DT", Json.str "NN"])] = .ok (some out))
        ∧ ((["DT", "NN"] : List String).length < ts.length →
          tagged_sentence
            [("tokens", Json.arr [Json.str "a", Json.str "b"]),
             ("pos_tags", Json.arr [Json.str "DT", Json.str "NN"])] =
            .error .indexError))
    ∧ (lookupOD [("tokens", Json.arr [Json.str "a", Json.str "b"]),
          ("pos_tags", Json.arr [Json.str "DT", Json.str "NN"])] "tokens" = none →
        tagged_sentence
          [("tokens", Json.arr [Json.str "a", Json.str "b"]),
           ("pos_tags", Json.arr [Json.str "DT", Json.str "NN"])] =
          .error .attributeError)
    ∧ (lookupOD [("tokens", Json.arr [Json.str "a", Json.str "b"]),
          ("pos_tags", Json.arr [Json.str "DT", Json.str "NN"])] "tokens" =
          some Json.null →
        tagged_sentence
          [("tokens", Json.arr [Json.str "a", Json.str "b"]),
           ("pos_tags", Json.arr [Json.str "DT", Json.str "NN"])] =
          .error .typeError) :=
  claim_C9_tagged_sentence_bounds
    [("tokens", Json.arr [Json.str "a", Json.str "b"]),
     ("pos_tags", Json.arr [Json.str "DT", Json.str "NN"])]
    ["DT", "NN"] rfl (by decide)

/-- Claim C10, counterexample. Deserialization can succeed while the field
set differs from the payload's keys: a payload key `"__dict__"` replaces
the whole attribute dictionary (dropping everything assigned before it),
so this payload with keys `raw_text, __dict__, sentences` yields a
Document whose fields are only `sentences, run_time_stats`, and even the
`raw_text` that WAS in the payload is inaccessible. -/
theorem claim_C10_counterexample :
    document_from_json (Json.obj
        [("raw_text", Json.str "t"), ("__dict__", Json.obj []),
         ("sentences", Json.arr [])]) false =
      .ok [("sentences", DValue.sents []), ("run_time_stats", DValue.js Json.null)]
    ∧ odKeys [("sentences", DValue.sents []),
        ("run_time_stats", DValue.js Json.null)] ≠
      ["raw_text", "__dict__", "sentences", "run_time_stats"]
    ∧ getattrD [("sentences", DValue.sents []),
        ("run_time_stats", DValue.js Json.null)] "raw_text" =
      .error .attributeError :=
  ⟨rfl, by decide, rfl⟩

/-- Claim C10 (amended): for every successfully deserialized payload none
of whose objects uses the special key `"__dict__"` (or the `Sentence`
property name `"tagged_sentence"` inside a sentence object), the
constructor is bypassed and each object's field set is exactly the keys of
its JSON object in payload order — the document's `sentences` replaced by
`Sentence` objects, and `run_time_stats` appended (or overwritten in
place) when benchmark is false; an attribute absent from the payload does
not exist on the result: accessing it raises `AttributeError` instead of
returning a constructor default. -/
theorem claim_C10_amended (dj : List (String × Json)) (sjs : List Json)
    (benchmark : Bool)
    (hd : "__dict__" ∉ dj.map Prod.fst)
    (hs : lookupLast dj "sentences" = some (.arr sjs))
    (hwf : ∀ s ∈ sjs, ∃ kvs, s = Json.obj kvs ∧
            ∀ p ∈ kvs, p.1 ≠ "tagged_sentence" ∧ p.1 ≠ "__dict__") :
    ∃ doc sents, document_from_json (.obj dj) benchmark = .ok doc
      ∧ odKeys doc = (if benchmark = true ∨ "run_time_stats" ∈ dj.map Prod.fst
            then firstOccs (dj.map Prod.fst)
            else firstOccs (dj.map Prod.fst) ++ ["run_time_stats"])
      ∧ lookupOD doc "sentences" = some (DValue.sents sents)
      ∧ (∀ a, a ∉ dj.map Prod.fst → (benchmark = true ∨ a ≠ "run_time_stats") →
            getattrD doc a = .error .attributeError)
      ∧ List.Forall₂ (fun sj st => ∀ kvs, sj = Json.obj kvs →
            odKeys st = firstOccs (kvs.map Prod.fst)
            ∧ ∀ k, k ∉ kvs.map Prod.fst → getattrS st k = .error .attributeError)
          sjs sents := by
  obtain ⟨sents, hm, hrel⟩ := mapM_json_to_class_sentence_ok sjs hwf
  have hmem_s : "sentences" ∈ dj.map Prod.fst := by
    by_contra hc
    rw [(lookupLast_eq_none_iff dj "sentences").mpr hc] at hs
    cases hs
  have hk0 : odKeys (docFold dj) = firstOccs (dj.map Prod.fst) := odKeys_docFold dj
  have hmem_s2 : "sentences" ∈ odKeys (docFold dj) := by
    rw [hk0]
    exact (mem_firstOccs _ _).mpr hmem_s
  have hk1 : odKeys (insertOD (docFold dj) "sentences" (DValue.sents sents)) =
      firstOccs (dj.map Prod.fst) := by
    rw [odKeys_insertOD, if_pos hmem_s2, hk0]
  have hkeys : odKeys (finalDoc dj sents benchmark) =
      (if benchmark = true ∨ "run_time_stats" ∈ dj.map Prod.fst
        then firstOccs (dj.map Prod.fst)
        else firstOccs (dj.map Prod.fst) ++ ["run_time_stats"]) := by
    cases benchmark with
    | true => simpa [finalDoc] using hk1
    | false =>
        show odKeys (insertOD (insertOD (docFold dj) "sentences"
            (DValue.sents sents)) "run_time_stats" (DValue.js Json.null)) = _
        rw [odKeys_insertOD, hk1]
        by_cases hrts : "run_time_stats" ∈ dj.map Prod.fst
        · rw [if_pos ((mem_firstOccs _ _).mpr hrts)]
          simp [hrts]
        · rw [if_neg (fun hc => hrts ((mem_firstOccs _ _).mp hc))]
          simp [hrts]
  refine ⟨finalDoc dj sents benchmark, sents,
    document_from_json_eq dj benchmark _ hd hs sjs rfl sents hm, hkeys, ?_, ?_, ?_⟩
  · cases benchmark <;> simp [finalDoc, lookupOD_insertOD]
  · intro a ha hb
    have hnotin : a ∉ odKeys (finalDoc dj sents benchmark) := by
      rw [hkeys]
      have ha2 : a ∉ firstOccs (dj.map Prod.fst) :=
        fun hc => ha ((mem_firstOccs _ _).mp hc)
      by_cases hcond : benchmark = true ∨ "run_time_stats" ∈ dj.map Prod.fst
      · rw [if_pos hcond]
        exact ha2
      · rw [if_neg hcond]
        intro hc
        rcases List.mem_append.mp hc with hc1 | hc2
        · exact ha2 hc1
        · simp only [List.mem_singleton] at hc2
          rcases hb with hb | hb
          · exact hcond (Or.inl hb)
          · exact hb hc2
    unfold getattrD
    rw [(lookupOD_eq_none_iff _ _).mpr hnotin]
  · refine hrel.imp ?_
    rintro sj st ⟨kvs, hsj, hst⟩ kvs2 hkvs2
    subst hsj
    injection hkvs2 with hkvs2
    subst hkvs2
    subst hst
    refine ⟨odKeys_foldInsert_nil kvs, ?_⟩
    intro k hk
    rw [getattrS_foldInsert, (lookupLast_eq_none_iff kvs k).mpr hk]

/-- Claim C10, witness: the amended theorem at a concrete payload; with
benchmark false and no `run_time_stats` key, that field is appended. -/
theorem claim_C10_witness :
    ∃ doc sents, document_from_json (Json.obj
        [("raw_text", Json.str "t"),
         ("sentences", Json.arr [Json.obj [("raw_sentence", Json.str "a")]])])
        false = .ok doc
      ∧ odKeys doc = (if false = true ∨ "run_time_stats" ∈
            ([("raw_text", Json.str "t"),
              ("sentences", Json.arr [Json.obj [("raw_sentence", Json.str "a")]])].map
              Prod.fst)
          then firstOccs ([("raw_text", Json.str "t"),
              ("sentences", Json.arr [Json.obj [("raw_sentence", Json.str "a")]])].map
              Prod.fst)
          else firstOccs ([("raw_text", Json.str "t"),
              ("sentences", Json.arr [Json.obj [("raw_sentence", Json.str "a")]])].map
              Prod.fst) ++ ["run_time_stats"])
      ∧ lookupOD doc "sentences" = some (DValue.sents sents)
      ∧ (∀ a, a ∉ ([("raw_text", Json.str "t"),
            ("sentences", Json.arr [Json.obj [("raw_sentence", Json.str "a")]])].map
            Prod.fst) → (false = true ∨ a ≠ "run_time_stats") →
          getattrD doc a = .error .attributeError)
      ∧ List.Forall₂ (fun sj st => ∀ kvs, sj = Json.obj kvs →
            odKeys st = firstOccs (kvs.map Prod.fst)
            ∧ ∀ k, k ∉ kvs.map Prod.fst → getattrS st k = .error .attributeError)
          [Json.obj [("raw_sentence", Json.str "a")]] sents :=
  claim_C10_amended
    [("raw_text", Json.str "t"),
     ("sentences", Json.arr [Json.obj [("raw_sentence", Json.str "a")]])]
    [Json.obj [("raw_sentence", Json.str "a")]] false (by decide) rfl
    (by
      intro s hs
      simp only [List.mem_singleton] at hs
      subst hs
      exact ⟨_, rfl, by intro p hp; fin_cases hp <;> exact ⟨by decide, by decide⟩⟩)
